import Mathlib

/-!
Verification development for the CryptoSage A2A agent (FastAPI service).

We shallowly embed the Python source into Lean 4: JSON-shaped Python values
become an inductive type `J`, pure functions become Lean functions, outbound
calls (CoinGecko, news feed, the LLM composer, Redis) become oracle fields of
an `Env` record, and code that can raise an uncaught exception returns
`Except Unit`.  Machine reals that are merely carried around (prices,
temperatures) are represented as rationals; no claim depends on float
arithmetic.
-/

set_option maxRecDepth 4000

namespace CryptoSage
/-! ## Python/JSON value model -/

/-- JSON-shaped Python runtime values.  Python `None` is `J.null`;
`int` and `float` are kept distinct because `isinstance(v, int)` checks
in the source distinguish them (and `bool` is its own constructor even
though Python treats it as an `int` subtype; the embedding handles the
subtyping explicitly where it matters). -/
inductive J where
  | null
  | bool (b : Bool)
  | int (n : ℤ)
  | float (q : ℚ)
  | str (s : String)
  | arr (xs : List J)
  | obj (kvs : List (String × J))
deriving Repr

/-- Python truthiness of a value (`bool(v)`). -/
def truthy : J → Bool
  | .null => false
  | .bool b => b
  | .int n => n != 0
  | .float q => q != 0
  | .str s => !s.isEmpty
  | .arr xs => !xs.isEmpty
  | .obj kvs => !kvs.isEmpty

/-- Python `v == s` for a string literal `s`: equal only when `v` is an
equal string (comparisons across types are simply `False`). -/
def jEqStr (v : J) (s : String) : Bool :=
  match v with
  | .str t => t == s
  | _ => false

/-- Lookup in an association list with later-entries-win semantics,
matching a Python `dict` built by inserting the pairs in order. -/
def lookupLast (kvs : List (String × J)) (k : String) : Option J :=
  ((kvs.filter (fun p => p.1 == k)).getLast?).map (·.2)

/-- Python `d.get(k, default)` on an object. -/
def objGetD (kvs : List (String × J)) (k : String) (d : J) : J :=
  (lookupLast kvs k).getD d

/-- Python `d.get(k)`: `J.null` plays the role of the default `None`
(a stored JSON `null` and an absent key are the same Python value). -/
def objGet (kvs : List (String × J)) (k : String) : J :=
  objGetD kvs k .null

/-- Python `v.get(k)` on an arbitrary value: raises `AttributeError`
unless `v` is a dict. -/
def pyGet (v : J) (k : String) : Except Unit J :=
  match v with
  | .obj kvs => .ok (objGet kvs k)
  | _ => .error ()

/-- Python `len(v)`: defined for strings, lists and dicts, raises
`TypeError` otherwise. -/
def pyLen (v : J) : Except Unit ℕ :=
  match v with
  | .str s => .ok s.length
  | .arr xs => .ok xs.length
  | .obj kvs => .ok kvs.length
  | _ => .error ()

/-- Python `v[i]` for a non-negative index: list indexing and string
indexing (a character comes back as a one-character string); indexing a
dict with an integer raises `KeyError`, everything else `TypeError`.
Out-of-range indices raise. -/
def pyIndex (v : J) (i : ℕ) : Except Unit J :=
  match v with
  | .arr xs => match xs[i]? with
    | some x => .ok x
    | none => .error ()
  | .str s => match s.data[i]? with
    | some c => .ok (.str (String.mk [c]))
    | none => .error ()
  | _ => .error ()

/-- Python `float(v)` as used on cached/fetched numbers: numbers and
booleans convert; `float` of a string or of any other value is modelled
as a failure (in the data flows of this service the argument is either a
JSON number or junk, and junk raises). -/
def pyFloat (v : J) : Except Unit ℚ :=
  match v with
  | .int n => .ok (n : ℚ)
  | .float q => .ok q
  | .bool b => .ok (if b then 1 else 0)
  | _ => .error ()

/-! ## Python string helpers -/

/-- Python ASCII whitespace, the `\s` class of `re` and the default
`str.strip`/`str.split` separator set (for the ASCII inputs modelled
here). -/
def pyIsSpace (c : Char) : Bool :=
  c == ' ' || c == '\t' || c == '\n' || c == '\x0d' || c == '\x0b' || c == '\x0c'

/-- Python `str.lower()` (ASCII). -/
def pyLower (s : String) : String :=
  String.mk (s.data.map Char.toLower)

/-- Python `str.upper()` (ASCII). -/
def pyUpper (s : String) : String :=
  String.mk (s.data.map Char.toUpper)

/-- Python `str.strip()` (ASCII whitespace). -/
def pyStrip (s : String) : String :=
  String.mk (((s.data.dropWhile pyIsSpace).reverse.dropWhile pyIsSpace).reverse)

/-- Python `str.split()` with no argument: split on whitespace runs,
discarding empty pieces (written with a token accumulator so that it is
structurally recursive). -/
def pySplitWs (s : String) : List String :=
  go [] s.data
where
  go (cur : List Char) : List Char → List String
    | [] => if cur.isEmpty then [] else [String.mk cur.reverse]
    | c :: rest =>
        if pyIsSpace c then
          if cur.isEmpty then go [] rest
          else String.mk cur.reverse :: go [] rest
        else go (c :: cur) rest

/-- Substring containment, Python's `needle in hay`. -/
def containsSub (hay needle : String) : Bool :=
  go hay.data
where
  go : List Char → Bool
    | [] => needle.data.isPrefixOf []
    | c :: rest => needle.data.isPrefixOf (c :: rest) || go rest

/-! ## `app/utils/intent.py`

The four regexes are embedded as dedicated matchers.  Their shapes are
`(?:kw1|kw2|…)\s+(\d{1,2})?\s*(?:coins|cryptos?)` (the "top-like" family)
and `(?:price|worth|value|rate)\s+of\s+([\w\-]+)`.  Because every
alternative of the literal tails begins with a non-space, non-digit
character, Python's backtracking collapses to: consume the keyword, then
the maximal whitespace run (at least one), then greedily two digits, one
digit, or none, then the maximal whitespace run, then a tail literal.
`re.search` takes the leftmost matching start position, and `re.I` is
modelled by running the matcher on the lowercased text. -/

/-- Does one of the tail literals (`coins`, `cryptos`, `crypto`) start here? -/
def tailOk (tails : List String) (cs : List Char) : Bool :=
  tails.any (fun t => t.data.isPrefixOf cs)

/-- Digit value of a char. -/
def digitVal (c : Char) : ℕ := c.toNat - '0'.toNat

/-- Attempt the `\s+(\d{1,2})?\s*(?:tail)` suffix of a top-like pattern
right after a matched keyword.  Returns `some g` on a match, where `g` is
the captured count group (`none` when the optional group is absent). -/
def topLikeAfterKw (tails : List String) (cs : List Char) : Option (Option ℕ) :=
  let ws := cs.takeWhile pyIsSpace
  if ws.isEmpty then none
  else
    let rest := cs.dropWhile pyIsSpace
    match rest with
    | a :: b :: r =>
        if a.isDigit && b.isDigit && tailOk tails (r.dropWhile pyIsSpace) then
          some (some (10 * digitVal a + digitVal b))
        else if a.isDigit && tailOk tails ((b :: r).dropWhile pyIsSpace) then
          some (some (digitVal a))
        else if tailOk tails rest then some none
        else none
    | [a] =>
        if a.isDigit && tailOk tails [] then some (some (digitVal a))
        else if tailOk tails rest then some none
        else none
    | [] => if tailOk tails [] then some none else none

/-- Match a whole top-like pattern at the current position, trying the
keyword alternatives in the regex's order. -/
def topLikeAt (kws tails : List String) (cs : List Char) : Option (Option ℕ) :=
  kws.findSome? fun kw =>
    if kw.data.isPrefixOf cs then topLikeAfterKw tails (cs.drop kw.length)
    else none

/-- `re.search` for a top-like pattern: leftmost matching position wins. -/
def searchTopLike (kws tails : List String) : List Char → Option (Option ℕ)
  | [] => topLikeAt kws tails []
  | c :: rest =>
    match topLikeAt kws tails (c :: rest) with
    | some r => some r
    | none => searchTopLike kws tails rest

/-- Keyword alternatives of `TOP_RE`, `WORST_RE`, `TREND_RE` (in the
backtracking order Python tries them: `losers?` prefers the plural). -/
def topKws : List String := ["top", "best"]
def worstKws : List String := ["worst", "losers", "loser"]
def trendKws : List String := ["trending", "hot"]

/-- Tail alternatives `(?:coins|cryptos?)`. -/
def coinTails : List String := ["coins", "cryptos", "crypto"]

/-- The character class `[\w\-]` (ASCII). -/
def isWordOrHyphen (c : Char) : Bool := c.isAlphanum || c == '_' || c == '-'

/-- Match `PRICE_RE`'s body at the current position; returns the captured
coin token. -/
def priceAt (cs : List Char) : Option (List Char) :=
  (["price", "worth", "value", "rate"]).findSome? fun kw =>
    if kw.data.isPrefixOf cs then
      let rest := cs.drop kw.length
      if (rest.takeWhile pyIsSpace).isEmpty then none
      else
        let rest2 := rest.dropWhile pyIsSpace
        if ("of".data).isPrefixOf rest2 then
          let rest3 := rest2.drop 2
          if (rest3.takeWhile pyIsSpace).isEmpty then none
          else
            let rest4 := rest3.dropWhile pyIsSpace
            let g := rest4.takeWhile isWordOrHyphen
            if g.isEmpty then none else some g
        else none
    else none

/-- `PRICE_RE.search`. -/
def searchPrice : List Char → Option (List Char)
  | [] => priceAt []
  | c :: rest =>
    match priceAt (c :: rest) with
    | some g => some g
    | none => searchPrice rest

/-- `classify` from `app/utils/intent.py`. -/
def classify (text : String) : String :=
  let t := pyLower text
  if containsSub t "news" || containsSub t "headline" then "news"
  else if (searchPrice t.data).isSome then "price"
  else if (searchTopLike topKws coinTails t.data).isSome then "top"
  else if (searchTopLike worstKws coinTails t.data).isSome then "worst"
  else if (searchTopLike trendKws coinTails t.data).isSome then "trending"
  else if containsSub t "detail" || containsSub t "info" then "detail"
  else "unknown"

/-- `extract_coin_from_price`: the captured group, lowercased (the source
searches the raw text case-insensitively and lowercases the group, which
for ASCII equals searching the lowercased text). -/
def extract_coin_from_price (text : String) : Option String :=
  (searchPrice (pyLower text).data).map String.mk

/-- `extract_count`: first of the three patterns that matches supplies
the count; a matched pattern with an absent group uses the default; the
result of a matched pattern is clamped by `max(1, min(50, n))`; no match
returns the default unclamped. -/
def extract_count (text : String) (defaultN : ℤ := 10) : ℤ :=
  let t := (pyLower text).data
  match searchTopLike topKws coinTails t with
  | some g => max 1 (min 50 (match g with | some n => (n : ℤ) | none => defaultN))
  | none =>
    match searchTopLike worstKws coinTails t with
    | some g => max 1 (min 50 (match g with | some n => (n : ℤ) | none => defaultN))
    | none =>
      match searchTopLike trendKws coinTails t with
      | some g => max 1 (min 50 (match g with | some n => (n : ℤ) | none => defaultN))
      | none => defaultN

/-! ## `app/utils/aliases.py` -/

/-- Helper for `resolve_coin_id`: the second-chance lookup after
stripping non-alphanumeric characters (`key2`), tried only when the
stripped form differs from the original key. -/
def resolveStripped (aliases : List (String × String)) (key : String) : Option String :=
  let key2 := String.mk (key.data.filter Char.isAlphanum)
  if key2 ≠ key then List.lookup key2 aliases else none

/-- `resolve_coin_id`, parameterized by the alias table (`get_aliases()`
returns it from cache or a fresh fetch; the lookup logic is the pure
part).  A falsy argument (`None` or the empty string) resolves to `None`;
a direct hit with a truthy id returns it; otherwise the
stripped-alphanumeric variant is tried when it differs.  The function is
total: no input makes it raise. -/
def resolve_coin_id (aliases : List (String × String)) (maybe : Option String) :
    Option String :=
  match maybe with
  | none => none
  | some m =>
    if m = "" then none
    else
      let key := pyLower (pyStrip m)
      match List.lookup key aliases with
      | some cid => if cid ≠ "" then some cid else resolveStripped aliases key
      | none => resolveStripped aliases key

/-- `dict.setdefault(k, v)`: insert only when the key is absent. -/
def setdefault (acc : List (String × String)) (k v : String) :
    List (String × String) :=
  if (List.lookup k acc).isSome then acc else acc ++ [(k, v)]

/-- Python `(j or "").lower()` on a fetched field: falsy values become
`""`; a truthy non-string raises (`AttributeError`), modelled as `none`. -/
def lowerOrEmpty (v : J) : Option String :=
  if truthy v then
    match v with
    | .str s => some (pyLower s)
    | _ => none
  else some ""

/-- One iteration of the `_fetch_aliases` loop body over a listing item:
lowercase id/symbol/name, then `setdefault` symbol and name to the id
when all are truthy.  `none` signals an exception escaping the loop. -/
def addCoin (acc : List (String × String)) (c : J) :
    Option (List (String × String)) :=
  match c with
  | .obj kvs => do
    let cid ← lowerOrEmpty (objGet kvs "id")
    let sym ← lowerOrEmpty (objGet kvs "symbol")
    let nm ← lowerOrEmpty (objGet kvs "name")
    if cid ≠ "" then
      let a1 := if sym ≠ "" then setdefault acc sym cid else acc
      some (if nm ≠ "" then setdefault a1 nm cid else a1)
    else some acc
  | _ => none

/-- Fold of the `_fetch_aliases` loop over one parsed listing.  The
boolean reports whether the loop completed; an exception part-way
returns the aliases accumulated so far (the enclosing `try` swallows the
exception and the function returns the partial dict). -/
def processItems (acc : List (String × String)) :
    List J → List (String × String) × Bool
  | [] => (acc, true)
  | c :: rest =>
    match addCoin acc c with
    | some acc' => processItems acc' rest
    | none => (acc, false)

/-- `_fetch_aliases` over the two parsed coin listings: the second
listing is only processed when the first loop completed without an
exception (an exception jumps to the `except` block and the partial
dict is returned). -/
def fetchAliases (l1 l2 : List J) : List (String × String) :=
  let p := processItems [] l1
  if p.2 then (processItems p.1 l2).1 else p.1

/-! ## `app/utils/cache.py` (in-process fallback path)

When the backing store is unavailable (`redis_client` is `None`, or
every call on it raises), `get_json`/`set_json` fall through to the
in-process map `_mem`, which stores `(expiry, serialized value)` pairs
and evicts expired entries lazily on read.  The stdlib `json`
serialization (code outside this repository) is abstracted as a
serializer with a round-trip property; `json.dumps` never returns the
empty string, which matters because `get_json` treats a falsy raw value
as a miss. -/

structure PySerializer (α : Type) where
  dumps : α → String
  loads : String → Option α
  dumps_nonempty : ∀ v, dumps v ≠ ""
  loads_dumps : ∀ v, loads (dumps v) = some v

/-- The in-process fallback map `_mem`: key to `(expiry, raw value)`.
Time is rational; expiry `0` means "no expiry". -/
def Mem : Type := String → Option (ℚ × String)

/-- `_mem_set`: expiry is `now + ex` when `ex` is truthy, else `0`. -/
def memSet (m : Mem) (key val : String) (ex : Option ℤ) (now : ℚ) : Mem :=
  fun k =>
    if k = key then
      some (match ex with
            | some e => if e ≠ 0 then now + (e : ℚ) else 0
            | none => 0, val)
    else m k

/-- `_mem_get`: a hit whose expiry is truthy and past evicts the entry
and reports a miss; otherwise the raw value is returned. -/
def memGet (m : Mem) (key : String) (now : ℚ) : Option String × Mem :=
  match m key with
  | none => (none, m)
  | some (exp, val) =>
    if exp ≠ 0 ∧ exp < now then (none, fun k => if k = key then none else m k)
    else (some val, m)

/-- `set_json` with the backing store unavailable: serialize and fall
through to `_mem_set`. -/
def set_json {α : Type} (ser : PySerializer α) (m : Mem) (key : String) (v : α)
    (ex : Option ℤ) (now : ℚ) : Mem :=
  memSet m key (ser.dumps v) ex now

/-- `get_json` with the backing store unavailable: read `_mem`, treat a
falsy raw value as a miss, else deserialize. -/
def get_json {α : Type} (ser : PySerializer α) (m : Mem) (key : String) (now : ℚ) :
    Option α × Mem :=
  let (raw, m') := memGet m key now
  (match raw with
   | some r => if r ≠ "" then ser.loads r else none
   | none => none, m')

/-- A concrete JSON-style serializer for booleans. -/
def boolSer : PySerializer Bool where
  dumps b := if b then "true" else "false"
  loads s := if s = "true" then some true else if s = "false" then some false else none
  dumps_nonempty := by decide
  loads_dumps := by decide

/-! ## `app/a2a/telex.py` -/

/-- Stdlib `html.unescape` (code outside this repository), modelled for
text whose ampersand escapes are among the five predefined entities
`&amp;` `&lt;` `&gt;` `&quot;` `&#39;`; other text passes through
unchanged. -/
def pyUnescape : List Char → List Char
  | '&' :: 'a' :: 'm' :: 'p' :: ';' :: rest => '&' :: pyUnescape rest
  | '&' :: 'l' :: 't' :: ';' :: rest => '<' :: pyUnescape rest
  | '&' :: 'g' :: 't' :: ';' :: rest => '>' :: pyUnescape rest
  | '&' :: 'q' :: 'u' :: 'o' :: 't' :: ';' :: rest => '"' :: pyUnescape rest
  | '&' :: '#' :: '3' :: '9' :: ';' :: rest => '\'' :: pyUnescape rest
  | c :: rest => c :: pyUnescape rest
  | [] => []

/-- `_TAGS_RE.sub(" ", s)` for `_TAGS_RE = <[^>]*>`: each `<` with a
later `>` swallows everything through the first `>` and becomes a single
space; a `<` with no closing `>` is kept verbatim.  Written as a state
machine: while inside a candidate tag the pending characters are kept
(in reverse) so that an unclosed tag at end of input is emitted
unchanged. -/
def tagsSub (cs : List Char) : List Char :=
  go none cs
where
  go : Option (List Char) → List Char → List Char
    | none, [] => []
    | none, c :: rest =>
      if c == '<' then go (some ['<']) rest else c :: go none rest
    | some pend, [] => pend.reverse
    | some pend, c :: rest =>
      if c == '>' then ' ' :: go none rest else go (some (c :: pend)) rest

/-- `_WS_RE.sub(" ", s)`: each maximal whitespace run becomes one space
(state machine: the flag records whether the previous character was part
of a whitespace run already replaced). -/
def wsCollapse (cs : List Char) : List Char :=
  go false cs
where
  go : Bool → List Char → List Char
    | _, [] => []
    | prevSpace, c :: rest =>
      if pyIsSpace c then
        if prevSpace then go true rest else ' ' :: go true rest
      else c :: go false rest

/-- `clean_text` from `app/a2a/telex.py`: HTML-unescape, strip tags,
collapse whitespace, strip.  (The early `if not raw: return ""` is
subsumed: the empty string maps to itself.) -/
def clean_text (s : String) : String :=
  pyStrip (String.mk (wsCollapse (tagsSub (pyUnescape s.data))))

/-- The call pattern `clean_text(x or "")` on a runtime value: falsy
values become `""`; a truthy non-string raises inside `unescape`. -/
def cleanArg (j : J) : Except Unit String :=
  match (if truthy j then j else J.str "") with
  | .str s => .ok (clean_text s)
  | _ => .error ()

/-- The call pattern `(x or "").strip()`: falsy values become `""`; a
truthy non-string raises (`AttributeError`). -/
def stripArg (j : J) : Option String :=
  match (if truthy j then j else J.str "") with
  | .str s => some (pyStrip s)
  | _ => none

/-- Python iteration over a runtime value: lists yield elements, strings
yield one-character strings, dicts yield their keys; numbers, booleans
and `None` raise `TypeError`. -/
def pyIterList (v : J) : Except Unit (List J) :=
  match v with
  | .arr xs => .ok xs
  | .str s => .ok (s.data.map (fun c => .str (String.mk [c])))
  | .obj kvs => .ok (kvs.map (fun p => .str p.1))
  | _ => .error ()

/-- Python `l[-n:]`. -/
def takeLast {α : Type} (n : ℕ) (l : List α) : List α :=
  l.drop (l.length - n)

/-- The master extractor's data-part loop: keep the cleaned text of each
dict item of kind "text" when the cleaned text is truthy. -/
def collectCleaned : List J → Except Unit (List String)
  | [] => .ok []
  | di :: rest =>
    match di with
    | .obj kvs =>
      if jEqStr (objGet kvs "kind") "text" then do
        let t ← cleanArg (objGet kvs "text")
        let others ← collectCleaned rest
        .ok (if t ≠ "" then t :: others else others)
      else collectCleaned rest
    | _ => collectCleaned rest

/-- The `parts[1]` data-part inspection of the master extractor: when
`parts` has an index 1 holding a dict of kind "data", return the cleaned
texts of its data items; `none` when the shape check fails (no data
branch); `.error` when the Python would raise. -/
def masterDataTexts (parts : J) (n : ℕ) : Except Unit (Option (List String)) := do
  if n > 1 then
    let p1 ← pyIndex parts 1
    match p1 with
    | .obj kvs1 =>
      if jEqStr (objGet kvs1 "kind") "data" then
        let dataRaw := objGet kvs1 "data"
        let dataItems := if truthy dataRaw then dataRaw else J.arr []
        let elems ← pyIterList dataItems
        let cleaned ← collectCleaned elems
        pure (some cleaned)
      else pure none
    | _ => pure none
  else pure none

/-- `extract_text_and_data_master`: prefer the last cleaned data-part
text, then the cleaned text-part at index 0, then the cleaned top-level
`message.text`; inline history is the cleaned data-part texts capped to
the last 20 (most-recent-last); the diagnostic string records the data
text count and the chosen source. -/
def extract_text_and_data_master (params : J) :
    Except Unit (Option String × List String × String) := do
  let msgRaw ←
    match (if truthy params then params else J.obj []) with
    | .obj kvs => pure (objGet kvs "message")
    | _ => .error ()
  let message := if truthy msgRaw then msgRaw else J.obj []
  let partsRaw ← pyGet message "parts"
  let parts := if truthy partsRaw then partsRaw else J.arr []
  let n ← pyLen parts
  let dataRes ← masterDataTexts parts n
  let (eff1, hist, dbg1) :=
    match dataRes with
    | some cleaned =>
      let ih := takeLast 20 cleaned
      if ih.isEmpty then
        ((none : Option String), ih, ["data_text_count=" ++ toString cleaned.length])
      else
        (some (ih.getLast?.getD ""), ih,
          ["data_text_count=" ++ toString cleaned.length, "source=data:last"])
    | none => (none, [], [])
  let (eff2, dbg2) ←
    match eff1 with
    | some _ => pure (eff1, dbg1)
    | none =>
      if n > 0 then do
        let p0 ← pyIndex parts 0
        match p0 with
        | .obj kvs0 =>
          if jEqStr (objGet kvs0 "kind") "text" then do
            let t0 ← cleanArg (objGet kvs0 "text")
            if t0 ≠ "" then pure (some t0, dbg1 ++ ["source=parts0"])
            else pure (none, dbg1)
          else pure (none, dbg1)
        | _ => pure (none, dbg1)
      else pure (none, dbg1)
  let (eff3, dbg3) ←
    match eff2 with
    | some _ => pure (eff2, dbg2)
    | none => do
      let mtRaw ← pyGet message "text"
      let mt ← cleanArg mtRaw
      if mt ≠ "" then pure (some mt, dbg2 ++ ["source=message.text"])
      else pure (none, dbg2)
  pure (eff3, hist, String.intercalate ";" (dbg3.take 3))

/-- The slave extractor's data-part loop over raw (stripped-only) texts.
The boolean reports whether the loop completed; on an exception the
texts collected so far are kept (the enclosing `try … except: pass`
swallows the exception). -/
def collectRawPartial : List J → List String × Bool
  | [] => ([], true)
  | di :: rest =>
    match di with
    | .obj kvs =>
      if jEqStr (objGet kvs "kind") "text" then
        match stripArg (objGet kvs "text") with
        | none => ([], false)
        | some t =>
          let (hs, ok) := collectRawPartial rest
          ((if t ≠ "" then t :: hs else hs), ok)
      else collectRawPartial rest
    | _ => collectRawPartial rest

/-- `extract_text_and_data_slave`: raw (trimmed, not HTML-cleaned)
texts, preferring `parts[0].text` for the effective text; every internal
failure is swallowed and leaves the state collected so far.  The final
`[-20:]` cap and `dbg[:3]` join happen outside the `try`. -/
def extract_text_and_data_slave (params : J) :
    Option String × List String × String :=
  let st := slaveCore
  (st.1, takeLast 20 st.2.1, String.intercalate ";" (st.2.2.take 3))
where
  slaveCore : Option String × List String × List String :=
    match (if truthy params then params else J.obj []) with
    | .obj pkvs =>
      let msgRaw := objGet pkvs "message"
      let message := if truthy msgRaw then msgRaw else J.obj []
      match pyGet message "parts" with
      | .error _ => (none, [], [])
      | .ok partsRaw =>
        let parts := if truthy partsRaw then partsRaw else J.arr []
        match parts with
        | .arr xs => afterParts message xs
        | _ => finalFallback message none [] []
    | _ => (none, [], [])
  afterParts (message : J) (xs : List J) : Option String × List String × List String :=
    -- parts[0] text-part attempt
    let step0 : Option (Option String × List String) :=
      if h0 : xs.length > 0 then
        match xs[0] with
        | .obj kvs0 =>
          if jEqStr (objGet kvs0 "kind") "text" then
            match stripArg (objGet kvs0 "text") with
            | none => none      -- exception: bail with nothing bound
            | some s =>
              let eff := if s ≠ "" then some s else none
              some (eff, ["parts[0].text_len=" ++ toString (eff.getD "").length])
          else some (none, [])
        | _ => some (none, [])
      else some (none, [])
    match step0 with
    | none => (none, [], [])
    | some (eff, dbg0) =>
      -- parts[1] data-part attempt
      if h1 : xs.length > 1 then
        match xs[1] with
        | .obj kvs1 =>
          if jEqStr (objGet kvs1 "kind") "data" then
            let dataRaw := objGet kvs1 "data"
            let dataItems := if truthy dataRaw then dataRaw else J.arr []
            match pyIterList dataItems with
            | .error _ => (eff, [], dbg0)
            | .ok elems =>
              let (hist, ok) := collectRawPartial elems
              if ok then
                finalFallback message eff hist
                  (dbg0 ++ ["data_text_count=" ++ toString hist.length])
              else (eff, hist, dbg0)
          else finalFallback message eff [] dbg0
        | _ => finalFallback message eff [] dbg0
      else finalFallback message eff [] dbg0
  finalFallback (message : J) (eff : Option String) (hist : List String)
      (dbg : List String) : Option String × List String × List String :=
    match eff with
    | some _ => (eff, hist, dbg)
    | none =>
      match pyGet message "text" with
      | .error _ => (none, hist, dbg)
      | .ok mtRaw =>
        match stripArg mtRaw with
        | none => (none, hist, dbg)
        | some e =>
          if e ≠ "" then (some e, hist, dbg ++ ["fallback:message.text"])
          else (none, hist, dbg)

/-! ## `_get_session_id` (`app/api/a2a_routes.py`)

Session identity is a pure function of the explicit params, the metadata
mapping and the inbound headers; the helpers below mirror the source's
`norm`/`pick` closures and the sequential fallback assignments. -/

/-- `norm`: strip, lowercase, spaces to underscores, truncate to 128. -/
def pyNorm (s : String) : String :=
  String.mk (((pyLower (pyStrip s)).data.map (fun c => if c = ' ' then '_' else c)).take 128)

/-- `norm(s)` on an optional value (`s or ""`). -/
def normO (s : Option String) : String := pyNorm (s.getD "")

/-- `pick`: lowercase the metadata keys (later duplicates win, as in the
dict comprehension), then return `str(v)` for the first requested key
whose value is a string or an int (Python's `bool` is an `int`). -/
def pickMeta (d : List (String × J)) (keys : List String) : Option String :=
  if d.isEmpty then none
  else
    let lowered := d.map (fun kv => (pyLower kv.1, kv.2))
    keys.findSome? (fun k =>
      match lookupLast lowered (pyLower k) with
      | some (.str s) => some s
      | some (.int n) => some (toString n)
      | some (.bool b) => some (if b then "True" else "False")
      | _ => none)

/-- The request-headers dict `{k.lower(): v}` (later duplicates win). -/
def hdrGet (headers : List (String × String)) (k : String) : Option String :=
  (((headers.map (fun p => (pyLower p.1, p.2))).filter (fun p => p.1 == k)).getLast?).map (·.2)

/-- Python `a or b` on optional strings (an empty string is falsy). -/
def pyOrStr (a b : Option String) : Option String :=
  match a with
  | some s => if s ≠ "" then some s else b
  | none => b

/-- `InvokeParams` (pydantic model): `text` required non-empty,
optional ids, optional metadata dict, temperature defaulting to 0.7. -/
structure InvokeParams where
  text : String
  channel_id : Option String := none
  user_id : Option String := none
  org_id : Option String := none
  metadata : Option (List (String × J)) := none
  temperature : ℚ := 7/10

/-- The user identity after the three fallback stages (explicit param,
metadata keys, headers). -/
def resolvedUser (headers : List (String × String)) (p : InvokeParams) : String :=
  let u1 := normO p.user_id
  let u2 := if u1 ≠ "" then u1
    else normO (pickMeta (p.metadata.getD [])
      ["user_id", "userId", "user", "telex_user_id"])
  if u2 ≠ "" then u2
  else normO (pyOrStr (hdrGet headers "x-user-id") (hdrGet headers "x-telex-user-id"))

/-- The org identity after the three fallback stages. -/
def resolvedOrg (headers : List (String × String)) (p : InvokeParams) : String :=
  let o1 := normO p.org_id
  let o2 := if o1 ≠ "" then o1
    else normO (pickMeta (p.metadata.getD [])
      ["org_id", "orgId", "organization_id", "workspace_id", "team_id",
       "installation_id", "telex_org_id"])
  if o2 ≠ "" then o2
  else normO (pyOrStr (hdrGet headers "x-org-id")
    (pyOrStr (hdrGet headers "x-telex-org-id") (hdrGet headers "x-workspace-id")))

/-- `_get_session_id`: `"{org}:{user}"` when both resolve, else the
first truthy of user id, org id, the generic session header, the channel
id, else `"anonymous"`. -/
def get_session_id (headers : List (String × String)) (p : InvokeParams) : String :=
  let user_id := resolvedUser headers p
  let org_id := resolvedOrg headers p
  let channel := normO p.channel_id
  if org_id ≠ "" ∧ user_id ≠ "" then org_id ++ ":" ++ user_id
  else
    let sid := normO (hdrGet headers "x-session-id")
    if user_id ≠ "" then user_id
    else if org_id ≠ "" then org_id
    else if sid ≠ "" then sid
    else if channel ≠ "" then channel
    else "anonymous"

/-! ## `app/api/a2a_routes.py` — request router and intent dispatcher

Outbound collaborators are oracle fields of `Env`; everything else is
embedded directly.  A result of `.ok` models a returned response at HTTP
200; `.error` models an exception escaping the handler to the framework
(an HTTP 500).  The trace records session-store appends, cache writes
and provider detail fetches; a trace accumulated before an escaping
exception is dropped with it (no claim reads it). -/

/-- Is the value Python `None`? -/
def isNull : J → Bool
  | .null => true
  | _ => false

/-- Inline-history turn `{"user": t, "assistant": ""}`. -/
def mkTurn (t : String) : J := J.obj [("user", .str t), ("assistant", .str "")]

/-- Trace events: `SessionStore.append`, `_safe_set_json`, and the
`cg.get_coin_detail` call of the detail branch. -/
inductive Ev where
  | append (sessionId userText assistantText : String)
  | cacheSet (key : String) (value : J) (ex : ℤ)
  | fetchDetail (coin : String)
deriving Repr

/-- The dispatcher's collaborators and configuration. -/
structure Env where
  headers : List (String × String)
  cfgLabel : String
  ttlShort : ℤ
  aliases : List (String × String)
  storedHistory : String → List J
  cacheGet : String → Except Unit J
  fetchPrice : String → Except Unit J
  getHeadlines : Except Unit J
  fetchMarkets : ℤ → Except Unit J
  fetchTrending : Except Unit J
  fetchDetail : String → Except Unit J
  compose : String → List J → J → ℚ → String
  fallback : String → List J → J → ℚ → String
  uuid : String
  now : String

/-- `JSONRPCResponse` as `_handle_invoke` produces it: the source never
populates `error` (even the structured not-found paths return a
`result`), so `error` is constantly `none` at every construction site. -/
structure RpcResp where
  id : J
  content : String
  error : Option (ℤ × String) := none
deriving Repr

/-- `as_result`. -/
def as_result (rid : J) (content : String) : RpcResp :=
  { id := rid, content := content }

/-- Python str(v) as used in f-string interpolation.  Container and
float renderings are simplified (no claim inspects these strings). -/
def pyStr : J → String
  | .null => "None"
  | .bool b => if b then "True" else "False"
  | .int n => toString n
  | .float q => toString q
  | .str s => s
  | .arr _ => "<list>"
  | .obj _ => "<dict>"

/-- `(v or "").upper()`. -/
def upperOr (v : J) : Except Unit String :=
  match (if truthy v then v else J.str "") with
  | .str s => .ok (pyUpper s)
  | _ => .error ()

/-- Two-decimal rendering for the format specs `,.2f` / `+,.2f`
(thousands separators and float rounding mode are simplified; the
rendered string is not load-bearing for any claim). -/
def fmtFixed2 (q : ℚ) : String :=
  let neg := q < 0
  let cents : ℤ := ⌊|q| * 100 + 1/2⌋
  let ip := cents / 100
  let fp := cents % 100
  (if neg then "-" else "") ++ toString ip ++ "." ++
    (if fp < 10 then "0" else "") ++ toString fp

/-- `sep.join(v)`: joins a list of strings, a string's characters, or a
dict's keys; anything else (or a non-string element) raises. -/
def pyJoinList (sep : String) (v : J) : Except Unit String :=
  match v with
  | .arr xs => (strList xs).map (String.intercalate sep)
  | .str s => .ok (String.intercalate sep (s.data.map (fun c => String.mk [c])))
  | .obj kvs => .ok (String.intercalate sep (kvs.map (·.1)))
  | _ => .error ()
where
  strList : List J → Except Unit (List String)
    | [] => .ok []
    | .str s :: rest => (strList rest).map (s :: ·)
    | _ => .error ()

/-- `_ai_error_result`: compose with a diagnostic fact sheet, append the
turn, return the result. -/
def aiErrorResult (env : Env) (rid : J) (sid text : String) (merged : List J)
    (label : J) (temp : ℚ) (error intent : String)
    (requestedCoin dataSource extra : J) : RpcResp × List Ev :=
  let facts := J.obj [("deployment_label", label), ("intent", .str intent),
    ("error", .str error), ("requested_coin", requestedCoin),
    ("data_source", dataSource), ("extra", extra)]
  let content := env.compose text merged facts temp
  (as_result rid content, [.append sid text content])

/-- The `extra` diagnostic of the price branch (the Python literal keeps
the indentation of its line continuations). -/
def priceExtraMsg : J := .str "System logic assumed the user wants to know the price of a coin,                             but the coin ID could not be resolved. [price fetch returned None].                             This likely means the coin is unknown or invalid or misspelled or                             not supported or similar. The system logic could have assumed wrong so check the user text carefully."

/-- The `extra` diagnostic of the detail branch. -/
def detailExtraMsg : J := .str "System logic assumed the user wants to know the detail of a coin,                     but the coin ID could not be resolved. [detail fetch returned None].                     This likely means the coin is unknown or invalid or misspelled or                     not supported or similar. The system logic could have assumed wrong so check the user text carefully."

/-- The price branch's unresolved-coin clarification path. -/
def priceClarify (env : Env) (rid : J) (sid text : String) (merged : List J)
    (label : J) (temp : ℚ) : RpcResp × List Ev :=
  let content := env.compose
    "User asked for a price but provided no recognized coin. Ask them to specify it clearly."
    merged (J.obj [("deployment_label", label)]) temp
  (as_result rid content, [.append sid text content])

/-- The price branch's fetch-exception path. -/
def priceFetchFail (env : Env) (rid : J) (sid text : String) (merged : List J)
    (label : J) (temp : ℚ) (coin : String) : RpcResp × List Ev :=
  let content := env.compose
    ("User asked for price of " ++ coin ++
      " but live price could not be fetched. Apologize briefly and ask to try again.")
    merged (J.obj [("deployment_label", label), ("intent", .str "price"),
      ("coin", .str coin)]) temp
  (as_result rid content, [.append sid text content])

/-- The price branch's success path: `float(price)` is unprotected, so a
non-numeric price raises and escapes without appending. -/
def priceCompose (env : Env) (rid : J) (sid text : String) (merged : List J)
    (label : J) (temp : ℚ) (coin : String) (price : J) (evs : List Ev) :
    Except Unit (RpcResp × List Ev) :=
  match pyFloat price with
  | .error e => .error e
  | .ok q =>
    let facts := J.obj [("deployment_label", label), ("intent", .str "price"),
      ("coin", .str coin), ("price_usd", .float q), ("data_source", .str "CoinGecko")]
    let content := env.compose text merged facts temp
    .ok (as_result rid content, evs ++ [.append sid text content])

/-- The price intent branch. -/
def handlePrice (env : Env) (rid : J) (sid text : String) (merged : List J)
    (label : J) (temp : ℚ) : Except Unit (RpcResp × List Ev) :=
  match resolve_coin_id env.aliases (extract_coin_from_price text) with
  | none => .ok (priceClarify env rid sid text merged label temp)
  | some coin =>
    if coin = "" then .ok (priceClarify env rid sid text merged label temp)
    else
      let cacheKey := "price:" ++ coin ++ ":usd"
      match env.cacheGet cacheKey with
      | .error _ => .ok (priceFetchFail env rid sid text merged label temp coin)
      | .ok cached =>
        if isNull cached then
          match env.fetchPrice coin with
          | .error _ => .ok (priceFetchFail env rid sid text merged label temp coin)
          | .ok price =>
            if isNull price then
              .ok (aiErrorResult env rid sid text merged label temp
                "coin_not_found" "price" (.str coin) (.str "CoinGecko") priceExtraMsg)
            else
              priceCompose env rid sid text merged label temp coin price
                [Ev.cacheSet cacheKey price 300]
        else priceCompose env rid sid text merged label temp coin cached []

/-- The news intent branch: the append sits outside the `try`, so every
path (including the fixed apology) appends before returning. -/
def handleNews (env : Env) (rid : J) (sid text : String) (merged : List J)
    (label : J) (temp : ℚ) : Except Unit (RpcResp × List Ev) :=
  let apology := "⚠️ Couldn’t fetch headlines right now."
  let (content, evs) :=
    match env.cacheGet "news:coindesk:5" with
    | .error _ => (apology, [])
    | .ok cached =>
      match (if truthy cached then Except.ok cached else env.getHeadlines) with
      | .error _ => (apology, [])
      | .ok headlines =>
        if truthy headlines then
          match pyJoinList "; " headlines with
          | .error _ => (apology, [Ev.cacheSet "news:coindesk:5" headlines env.ttlShort])
          | .ok joined =>
            (env.compose "Summarize these headlines for the user." merged
              (J.obj [("deployment_label", label), ("intent", .str "market_news"),
                ("headlines", .str joined), ("data_source", .str "CoinDesk RSS")]) temp,
             [Ev.cacheSet "news:coindesk:5" headlines env.ttlShort])
        else (apology, [])
  .ok (as_result rid content, evs ++ [.append sid text content])

/-- One line of `_md_top_list`: the price formatting is protected by a
`try` (falling back to "N/A"), the change formatting is not, so a
non-numeric 24h change raises. -/
def mdLines (i : ℕ) : List J → Except Unit (List String)
  | [] => .ok []
  | c :: rest =>
    match c with
    | .obj kvs => do
      let nameJ := (let nm := objGet kvs "name"; if truthy nm then nm else objGet kvs "id")
      let sym ← upperOr (objGet kvs "symbol")
      let price := objGet kvs "current_price"
      let priceStr := if isNull price then "N/A"
        else match pyFloat price with
          | .ok q => "$" ++ fmtFixed2 q
          | .error _ => "N/A"
      let chg := objGet kvs "price_change_percentage_24h"
      let chgStr ← (if isNull chg then Except.ok ""
        else match pyFloat chg with
          | .error e => .error e
          | .ok q => .ok (" (" ++ (if q < 0 then "" else "+") ++ fmtFixed2 q ++ "%)"))
      let restLines ← mdLines (i + 1) rest
      .ok ((toString (i : ℤ) ++ ". **" ++ pyStr nameJ ++ " (" ++ sym ++ ")** — " ++
        priceStr ++ chgStr) :: restLines)
    | _ => .error ()

/-- `_md_top_list` (call sites guard falsy arguments to `[]`; a truthy
non-list argument makes the enumeration raise). -/
def mdTopList (title : String) (coins : J) : Except Unit String :=
  match coins with
  | .arr xs => do
    let lines ← mdLines 1 xs
    .ok ("**" ++ title ++ "**\n\n" ++ String.intercalate "\n" lines ++
      "\n\n_This is not financial advice._")
  | _ => .error ()

/-- Sort keys of the worst-branch re-sort: `x.get(...) or 0`, compared
as numbers (comparison of non-numeric keys, which would raise in Python,
is modelled as the failure at key extraction). -/
def sortKeys : List J → Except Unit (List (ℚ × J))
  | [] => .ok []
  | c :: rest =>
    match c with
    | .obj kvs =>
      let kJ := (let v := objGet kvs "price_change_percentage_24h";
        if truthy v then v else J.int 0)
      match pyFloat kJ with
      | .error e => .error e
      | .ok q => (sortKeys rest).map ((q, c) :: ·)
    | _ => .error ()

/-- `sorted(markets or [], key=…)[:n]` of the worst branch. -/
def sortWorst (markets : J) (n : ℤ) : Except Unit J :=
  match (if truthy markets then markets else J.arr []) with
  | .arr xs => do
    let keyed ← sortKeys xs
    .ok (.arr (((keyed.mergeSort (fun a b => decide (a.1 ≤ b.1))).map (·.2)).take n.toNat))
  | _ => .error ()

/-- The ranked-items fact list of the top/worst branch. -/
def itemRows (i : ℕ) : List J → Except Unit (List J)
  | [] => .ok []
  | c :: rest =>
    match c with
    | .obj kvs => do
      let sym ← upperOr (objGet kvs "symbol")
      let r ← itemRows (i + 1) rest
      .ok (J.obj [("rank", .int (i + 1)), ("name", objGet kvs "name"),
        ("symbol", .str sym), ("price", objGet kvs "current_price"),
        ("change_24h", objGet kvs "price_change_percentage_24h"),
        ("market_cap", objGet kvs "market_cap")] :: r)
    | _ => .error ()

/-- `[{…} for i, c in enumerate(markets or [])]`. -/
def buildItems (markets : J) : Except Unit J :=
  match (if truthy markets then markets else J.arr []) with
  | .arr xs => (itemRows 0 xs).map J.arr
  | _ => .error ()

/-- The except-path of the top/worst branch: build the Markdown fallback
from the bound `markets` value; if the fallback itself raises, the
exception escapes. -/
def topExceptPath (env : Env) (rid : J) (sid text : String) (markets : J)
    (title : String) (evs : List Ev) : Except Unit (RpcResp × List Ev) :=
  match mdTopList title (if truthy markets then markets else .arr []) with
  | .error e => .error e
  | .ok content => .ok (as_result rid content, evs ++ [.append sid text content])

/-- The top/worst intent branch.  A failure of the cache read or the
market fetch leaves `markets` unbound, so the `except` handler itself
raises (`UnboundLocalError`) and nothing is appended. -/
def handleTop (env : Env) (rid : J) (sid text : String) (merged : List J)
    (label : J) (temp : ℚ) (intent : String) : Except Unit (RpcResp × List Ev) :=
  let n := extract_count text 10
  let title := if intent = "worst" then "Worst " ++ toString n ++ " coins (24h)"
    else "Top " ++ toString n ++ " coins by market cap"
  let cacheKey := "markets:top:" ++ toString n
  match env.cacheGet cacheKey with
  | .error e => .error e
  | .ok cached =>
    match (if truthy cached then Except.ok cached else env.fetchMarkets n) with
    | .error e => .error e
    | .ok markets0 =>
      let evs := [Ev.cacheSet cacheKey markets0 env.ttlShort]
      match (if intent = "worst" then sortWorst markets0 n else .ok markets0) with
      | .error _ => topExceptPath env rid sid text markets0 title evs
      | .ok markets =>
        match buildItems markets with
        | .error _ => topExceptPath env rid sid text markets title evs
        | .ok items =>
          let facts := J.obj [("deployment_label", label),
            ("intent", .str (if intent = "worst" then "worst" else "top")),
            ("count", .int n), ("list", items), ("data_source", .str "CoinGecko")]
          let content0 := env.compose text merged facts temp
          if content0 = "" then
            match mdTopList title (if truthy markets then markets else .arr []) with
            | .error _ => topExceptPath env rid sid text markets title evs
            | .ok content => .ok (as_result rid content, evs ++ [.append sid text content])
          else .ok (as_result rid content0, evs ++ [.append sid text content0])

/-- The trending fact list. -/
def trendRows (i : ℕ) : List J → Except Unit (List J)
  | [] => .ok []
  | c :: rest =>
    match c with
    | .obj kvs => do
      let sym ← upperOr (objGet kvs "symbol")
      let r ← trendRows (i + 1) rest
      .ok (J.obj [("rank", .int (i + 1)), ("name", objGet kvs "name"),
        ("symbol", .str sym), ("market_cap_rank", objGet kvs "market_cap_rank")] :: r)
    | _ => .error ()

def trendItems (trending : J) : Except Unit J :=
  match (if truthy trending then trending else J.arr []) with
  | .arr xs => (trendRows 0 xs).map J.arr
  | _ => .error ()

/-- The trending except-path lines over `(trending or [])[:10]`. -/
def trendLines (i : ℕ) : List J → Except Unit (List String)
  | [] => .ok []
  | c :: rest =>
    match c with
    | .obj kvs => do
      let sym ← upperOr (objGet kvs "symbol")
      let r ← trendLines (i + 1) rest
      .ok ((toString ((i : ℤ) + 1) ++ ". " ++ pyStr (objGet kvs "name") ++
        " (" ++ sym ++ ")") :: r)
    | _ => .error ()

def trendFallback (trending : J) : Except Unit String :=
  match (if truthy trending then trending else J.arr []) with
  | .arr xs => do
    let lines ← trendLines 0 (xs.take 10)
    .ok ("**Trending coins**\n\n" ++ String.intercalate "\n" lines ++
      "\n\n_This is not financial advice._")
  | _ => .error ()

/-- The trending intent branch: a failed fetch leaves `trending` unbound
in the `except` handler, so the exception escapes without an append. -/
def handleTrending (env : Env) (rid : J) (sid text : String) (merged : List J)
    (label : J) (temp : ℚ) : Except Unit (RpcResp × List Ev) :=
  match env.cacheGet "trending" with
  | .error e => .error e
  | .ok cached =>
    match (if truthy cached then Except.ok cached else env.fetchTrending) with
    | .error e => .error e
    | .ok trending =>
      let evs := [Ev.cacheSet "trending" trending env.ttlShort]
      match trendItems trending with
      | .error _ =>
        match trendFallback trending with
        | .error e => .error e
        | .ok content => .ok (as_result rid content, evs ++ [.append sid text content])
      | .ok items =>
        let facts := J.obj [("deployment_label", label), ("intent", .str "trending"),
          ("list", items), ("data_source", .str "CoinGecko")]
        let content := env.compose text merged facts temp
        .ok (as_result rid content, evs ++ [.append sid text content])

/-- The detail fact sheet (`detail.get(...)` on each field). -/
def detailFacts (detail : J) (label : J) : Except Unit J :=
  match detail with
  | .obj kvs => .ok (J.obj [("deployment_label", label), ("intent", .str "detail"),
      ("name", objGet kvs "name"), ("symbol", objGet kvs "symbol"),
      ("price", objGet kvs "price"), ("market_cap", objGet kvs "market_cap"),
      ("volume_24h", objGet kvs "volume_24h"), ("change_24h", objGet kvs "change_24h"),
      ("data_source", .str "CoinGecko")])
  | _ => .error ()

/-- The detail intent branch: the trailing word is used verbatim (after
lowercasing) as the coin id whenever the alias table cannot resolve it
(`resolve_coin_id(maybe) or maybe`); the structured not-found response
is produced only when the detail fetch raises or returns a falsy value. -/
def handleDetail (env : Env) (rid : J) (sid text : String) (merged : List J)
    (label : J) (temp : ℚ) : Except Unit (RpcResp × List Ev) :=
  match (pySplitWs text).getLast? with
  | none => .error ()
  | some w =>
    let maybe := pyLower w
    let coin :=
      match resolve_coin_id env.aliases (some maybe) with
      | some c => if c = "" then maybe else c
      | none => maybe
    let detail :=
      match env.fetchDetail coin with
      | .error _ => J.null
      | .ok d => d
    if truthy detail then
      match detailFacts detail label with
      | .error e => .error e
      | .ok facts =>
        let content := env.compose text merged facts temp
        .ok (as_result rid content, [Ev.fetchDetail coin, .append sid text content])
    else
      let (r, evs) := aiErrorResult env rid sid text merged label temp
        "coin_not_found" "detail" (.str coin) (.str "CoinGecko") detailExtraMsg
      .ok (r, Ev.fetchDetail coin :: evs)

/-- The unknown-intent fallback. -/
def handleUnknown (env : Env) (rid : J) (sid text : String) (merged : List J)
    (label : J) (temp : ℚ) : RpcResp × List Ev :=
  let content := env.fallback text merged (J.obj [("deployment_label", label)]) temp
  (as_result rid content, [.append sid text content])

/-- The merged history: inline turns (user-only) prepended to the stored
history and capped to the last 30, only when inline history is truthy. -/
def mergedHistory (env : Env) (sid : String) (ih : Option (List String)) : List J :=
  let stored := env.storedHistory sid
  match ih with
  | some l => if l.isEmpty then stored else takeLast 30 (l.map mkTurn ++ stored)
  | none => stored

/-- `_handle_invoke`: derive the session id, merge histories, classify,
dispatch. -/
def handle_invoke (env : Env) (rid : J) (text : String) (p : InvokeParams)
    (label : J) (temp : ℚ) (ih : Option (List String)) :
    Except Unit (RpcResp × List Ev) :=
  let sid := get_session_id env.headers p
  let merged := mergedHistory env sid ih
  let intent := classify text
  if intent = "price" then handlePrice env rid sid text merged label temp
  else if intent = "news" then handleNews env rid sid text merged label temp
  else if intent = "top" ∨ intent = "worst" then
    handleTop env rid sid text merged label temp intent
  else if intent = "trending" then handleTrending env rid sid text merged label temp
  else if intent = "detail" then handleDetail env rid sid text merged label temp
  else .ok (handleUnknown env rid sid text merged label temp)

/-- `parse_jsonrpc`: leniently extract id/method/params; a truthy
non-dict body has no `.get` and raises (`AttributeError`), which the
endpoint's `except` handler turns into a `NameError` on the unbound
`rid`, escaping to the framework. -/
def parse_jsonrpc (body : J) : Except Unit (J × J × J) :=
  match (if truthy body then body else J.obj []) with
  | .obj kvs =>
    .ok (objGetD kvs "id" (.str ""), objGet kvs "method",
      (let p := objGet kvs "params"; if truthy p then p else J.obj []))
  | _ => .error ()

/-- The echoed user message appended to the task history. -/
def userEchoMsg (env : Env) (e : String) : J :=
  J.obj [("kind", .str "message"), ("role", .str "user"),
    ("parts", .arr [J.obj [("kind", .str "text"), ("text", .str e)]]),
    ("messageId", .str env.uuid), ("taskId", .null), ("metadata", .null)]

/-- `make_task_result`: the Raven-style task envelope.  Its top-level
keys are exactly `jsonrpc`, `id`, `result` — there is never an `error`
member.  `uuid.uuid4()` and the timestamp are supplied by the
environment. -/
def make_task_result (env : Env) (rid : J) (content : String)
    (contextId taskId : J) (state : String) (userEcho : Option String) : J :=
  J.obj [("jsonrpc", .str "2.0"), ("id", rid), ("result", J.obj [
    ("id", taskId), ("contextId", contextId),
    ("status", J.obj [("state", .str state), ("timestamp", .str env.now),
      ("message", J.obj [("kind", .str "message"), ("role", .str "agent"),
        ("parts", .arr [J.obj [("kind", .str "text"), ("text", .str content)]]),
        ("messageId", .str env.uuid), ("taskId", .null), ("metadata", .null)])]),
    ("artifacts", .arr [J.obj [("artifactId", .str env.uuid),
      ("name", .str "assistantResponse"),
      ("parts", .arr [J.obj [("kind", .str "text"), ("text", .str content)]])]]),
    ("history", match userEcho with | none => .arr [] | some e => .arr [userEchoMsg env e]),
    ("kind", .str "task")])]

/-- `HELP_TEXT`. -/
def HELP_TEXT : String :=
  "**CryptoSage (FastAPI) — A2A Agent**\n\nI can answer crypto questions:\n- `price of <coin>`\n- `top 10 coins` / `worst 5 coins`\n- `trending coins`\n- `news`\n- `details on <coin>`\n\n_All data via free public APIs. This is not financial advice._"

/-- The deployment-label `or` chain after a falsy header: `meta.get` can
raise on a truthy non-dict metadata value. -/
def metaLabel (env : Env) (meta : J) : Except Unit J := do
  let v ← pyGet meta "deployment_label"
  pure (if truthy v then v else J.str env.cfgLabel)

/-- Starlette's case-insensitive `req.headers.get`. -/
def headerGetCI (headers : List (String × String)) (k : String) : Option String :=
  (headers.find? (fun p => pyLower p.1 == pyLower k)).map (·.2)

/-- The `message/send` branch of the endpoint, inside its `try`: extract
the Telex message, fall back to the slave extractor, handle the no-text
case, resolve the deployment label, validate `InvokeParams`, run the
dispatcher, and re-wrap its content into a task envelope. -/
def msgSendCore (env : Env) (rid : J) (pkvs : List (String × J)) :
    Except Unit (J × List Ev) := do
  let message := (let m := objGet pkvs "message"; if truthy m then m else J.obj [])
  let ctxRaw ← pyGet message "taskId"
  let contextId := if truthy ctxRaw then ctxRaw else J.str env.uuid
  let tidRaw ← pyGet message "messageId"
  let taskId := if truthy tidRaw then tidRaw else J.str env.uuid
  let partsRaw ← pyGet message "parts"
  let parts := if truthy partsRaw then partsRaw else J.arr []
  let _ ← pyLen parts
  let (t1, h1, _) ← extract_text_and_data_master (J.obj pkvs)
  let (tv, hist) :=
    if (t1.getD "") = "" then
      (let st := extract_text_and_data_slave (J.obj pkvs); (st.1.getD "", st.2.1))
    else (t1.getD "", h1)
  if tv = "" then
    pure (make_task_result env rid "I didn't receive any text. Please send a crypto query."
      contextId taskId "completed" (some ""), [])
  else do
    let metaRaw := objGet pkvs "metadata"
    let meta := if truthy metaRaw then metaRaw else J.obj []
    let label ←
      match headerGetCI env.headers "X-Deployment-Label" with
      | some s => if s ≠ "" then pure (J.str s) else metaLabel env meta
      | none => metaLabel env meta
    let temp : ℚ := 7/10
    let mkvs ← (match meta with | .obj kvs => Except.ok kvs | _ => Except.error ())
    let p : InvokeParams := ⟨tv, none, none, none, some mkvs, temp⟩
    let rt ← handle_invoke env rid tv p label temp (some hist)
    let state := if rt.1.error.isSome then "failed" else "completed"
    pure (make_task_result env rid rt.1.content contextId taskId state (some tv), rt.2)

/-- The `/invoke` endpoint: `.ok` is a returned envelope at HTTP 200;
`.error` is an exception escaping to the framework (HTTP 500, which
happens when `parse_jsonrpc` raises, because the `except` handler then
trips over the unbound `rid`).  Every other failure inside the `try` is
caught and answered with a failed task envelope. -/
def invoke (env : Env) (body : J) : Except Unit (J × List Ev) :=
  match parse_jsonrpc body with
  | .error e => .error e
  | .ok (rid, method, params) =>
    if jEqStr method "help" then
      .ok (make_task_result env rid HELP_TEXT (J.str env.uuid) (J.str env.uuid)
        "completed" none, [])
    else if jEqStr method "message/send" then
      match params with
      | .obj pkvs =>
        match msgSendCore env rid pkvs with
        | .ok r => .ok r
        | .error _ => .ok (make_task_result env rid
            "Internal error while handling the request." (J.str env.uuid)
            (J.str env.uuid) "failed" none, [])
      | _ => .ok (make_task_result env rid "Invalid params for message/send."
          (J.str env.uuid) (J.str env.uuid) "failed" none, [])
    else .ok (make_task_result env rid "Unknown method. Use 'message/send' or 'help'."
        (J.str env.uuid) (J.str env.uuid) "failed" none, [])

/-- A concrete environment for closed evaluations. -/
def envTest : Env where
  headers := []
  cfgLabel := "CryptoSage A2A"
  ttlShort := 300
  aliases := []
  storedHistory := fun _ => []
  cacheGet := fun _ => .ok J.null
  fetchPrice := fun _ => .ok (J.float (134001/2))
  getHeadlines := .ok (J.arr [J.str "h1"])
  fetchMarkets := fun _ => .ok (J.arr [])
  fetchTrending := .ok (J.arr [])
  fetchDetail := fun c => .ok (J.obj [("name", J.str c)])
  compose := fun _ _ _ _ => "C"
  fallback := fun _ _ _ _ => "FB"
  uuid := "u"
  now := "t"

/-- The `id` member of a response envelope. -/
def jIdOf (resp : J) : Option J :=
  match resp with
  | .obj kvs => lookupLast kvs "id"
  | _ => none

/-- The `error` member of a response envelope (a JSON-RPC error response
would carry one). -/
def jErrorOf (resp : J) : Option J :=
  match resp with
  | .obj kvs => lookupLast kvs "error"
  | _ => none

/-- The task state `resp["result"]["status"]["state"]`. -/
def jStateOf (resp : J) : Option J :=
  match resp with
  | .obj kvs =>
    match lookupLast kvs "result" with
    | some (.obj r) =>
      match lookupLast r "status" with
      | some (.obj st) => lookupLast st "state"
      | _ => none
    | _ => none
  | _ => none

/-- The C2 counterexample request: `method="invoke"` with params lacking
any `text`. -/
def bodyInvoke : J :=
  J.obj [("jsonrpc", J.str "2.0"), ("id", J.str "1"), ("method", J.str "invoke"),
    ("params", J.obj [])]

/-! ## Theorems -/

theorem dropWhile_length_le (p : Char → Bool) :
    ∀ l : List Char, (l.dropWhile p).length ≤ l.length
  | [] => le_refl _
  | c :: rest => by
    simp only [List.dropWhile]
    split
    · exact le_trans (dropWhile_length_le p rest) (Nat.le_succ _)
    · simp

example : extract_count "top 200 coins" = 10 := by decide
example : extract_count "top coins" = 10 := by decide
example : extract_count "top 99 coins" = 50 := by decide
example : extract_count "top 0 coins" = 1 := by decide
example : extract_count "top 25coins" = 25 := by decide
example : extract_count "best 12cryptos" = 12 := by decide
example : extract_count "worst 3 coins" = 3 := by decide
example : extract_count "hot 07 cryptos" = 7 := by decide
example : classify "top 200 coins" = "unknown" := by decide
example : classify "any news on the price of btc" = "news" := by decide
example : classify "price of bitcoin" = "price" := by decide
example : classify "best 5 cryptos" = "top" := by decide
example : classify "worst 3 coins" = "worst" := by decide
example : classify "trending coins" = "trending" := by decide
example : classify "hot 7 cryptos" = "trending" := by decide
example : classify "price ofof bitcoin" = "unknown" := by decide
example : classify "details on solana" = "detail" := by decide
example : extract_coin_from_price "the price  of  ETH-2_x!" = some "eth-2_x" := by decide

/-- C4: `classify` maps lowercase text to exactly one label of the closed
set {news, price, top, worst, trending, detail, unknown} by
first-match-wins ordered checks: the news/headline substring check
precedes the price-pattern check, which precedes the top, worst and
trending pattern checks, which precede the detail/info substring checks;
in particular any text containing "news" (so in particular any text
containing both "news" and a price phrase) classifies as "news". -/
theorem classify_closed_set_and_order :
    (∀ t : String,
      classify t = "news" ∨ classify t = "price" ∨ classify t = "top" ∨
      classify t = "worst" ∨ classify t = "trending" ∨ classify t = "detail" ∨
      classify t = "unknown")
  ∧ (∀ t : String,
      (containsSub (pyLower t) "news" = true ∨ containsSub (pyLower t) "headline" = true) →
      classify t = "news")
  ∧ (∀ t : String,
      containsSub (pyLower t) "news" = false → containsSub (pyLower t) "headline" = false →
      (searchPrice (pyLower t).data).isSome = true →
      classify t = "price")
  ∧ (∀ t : String,
      containsSub (pyLower t) "news" = false → containsSub (pyLower t) "headline" = false →
      (searchPrice (pyLower t).data).isSome = false →
      (searchTopLike topKws coinTails (pyLower t).data).isSome = true →
      classify t = "top")
  ∧ (∀ t : String,
      containsSub (pyLower t) "news" = false → containsSub (pyLower t) "headline" = false →
      (searchPrice (pyLower t).data).isSome = false →
      (searchTopLike topKws coinTails (pyLower t).data).isSome = false →
      (searchTopLike worstKws coinTails (pyLower t).data).isSome = true →
      classify t = "worst")
  ∧ (∀ t : String,
      containsSub (pyLower t) "news" = false → containsSub (pyLower t) "headline" = false →
      (searchPrice (pyLower t).data).isSome = false →
      (searchTopLike topKws coinTails (pyLower t).data).isSome = false →
      (searchTopLike worstKws coinTails (pyLower t).data).isSome = false →
      (searchTopLike trendKws coinTails (pyLower t).data).isSome = true →
      classify t = "trending")
  ∧ (∀ t : String,
      containsSub (pyLower t) "news" = false → containsSub (pyLower t) "headline" = false →
      (searchPrice (pyLower t).data).isSome = false →
      (searchTopLike topKws coinTails (pyLower t).data).isSome = false →
      (searchTopLike worstKws coinTails (pyLower t).data).isSome = false →
      (searchTopLike trendKws coinTails (pyLower t).data).isSome = false →
      (containsSub (pyLower t) "detail" = true ∨ containsSub (pyLower t) "info" = true) →
      classify t = "detail")
  ∧ (∀ t : String,
      containsSub (pyLower t) "news" = false → containsSub (pyLower t) "headline" = false →
      (searchPrice (pyLower t).data).isSome = false →
      (searchTopLike topKws coinTails (pyLower t).data).isSome = false →
      (searchTopLike worstKws coinTails (pyLower t).data).isSome = false →
      (searchTopLike trendKws coinTails (pyLower t).data).isSome = false →
      containsSub (pyLower t) "detail" = false → containsSub (pyLower t) "info" = false →
      classify t = "unknown") := by
  refine ⟨?_, ?_, ?_, ?_, ?_, ?_, ?_, ?_⟩
  · intro t
    simp only [classify]
    split_ifs <;> simp
  · intro t h
    simp only [classify]
    rcases h with h | h <;> simp [h]
  · intro t h1 h2 h3
    simp only [classify]
    simp [h1, h2, h3]
  · intro t h1 h2 h3 h4
    simp only [classify]
    simp [h1, h2, h3, h4]
  · intro t h1 h2 h3 h4 h5
    simp only [classify]
    simp [h1, h2, h3, h4, h5]
  · intro t h1 h2 h3 h4 h5 h6
    simp only [classify]
    simp [h1, h2, h3, h4, h5, h6]
  · intro t h1 h2 h3 h4 h5 h6 h7
    simp only [classify]
    rcases h7 with h7 | h7 <;> simp [h1, h2, h3, h4, h5, h6, h7]
  · intro t h1 h2 h3 h4 h5 h6 h7 h8
    simp only [classify]
    simp [h1, h2, h3, h4, h5, h6, h7, h8]

/-- Witness for `classify_closed_set_and_order`: the news-precedes-price
conjunct evaluated at a text that contains both "news" and a price
phrase. -/
theorem classify_closed_set_and_order_witness :
    (containsSub (pyLower "news about the price of btc") "news" = true ∨
      containsSub (pyLower "news about the price of btc") "headline" = true) ∧
    classify "news about the price of btc" = "news" ∧
    (searchPrice (pyLower "news about the price of btc").data).isSome = true :=
  ⟨Or.inl (by decide),
   classify_closed_set_and_order.2.1 "news about the price of btc" (Or.inl (by decide)),
   by decide⟩

/-- C5 counterexample: the claim says `extract_count "top 200 coins"`
yields 50, but the count group of `TOP_RE` admits only one or two digits,
so the pattern does not match "top 200 coins" at all and the default 10
is returned. -/
theorem extract_count_top200_counterexample :
    extract_count "top 200 coins" = 10 ∧ (10 : ℤ) ≠ 50 := by
  constructor
  · decide
  · decide

/-- C5 (amended): with the call-site default 10, `extract_count` always
returns an integer in [1,50]; a matched top/worst/trending phrase with an
absent count uses the default ("top coins" yields 10); but "top 200
coins" yields the default 10, not 50, because the count pattern admits
only one- or two-digit counts, so a three-digit count prevents the
pattern from matching. -/
theorem extract_count_clamped :
    (∀ text : String, 1 ≤ extract_count text ∧ extract_count text ≤ 50)
  ∧ extract_count "top coins" = 10
  ∧ extract_count "top 200 coins" = 10 := by
  have clampInt : ∀ x : ℤ, 1 ≤ max 1 (min 50 x) ∧ max 1 (min 50 x) ≤ 50 := by
    intro x; omega
  refine ⟨?_, by decide, by decide⟩
  intro text
  simp only [extract_count]
  split
  · exact clampInt _
  · split
    · exact clampInt _
    · split
      · exact clampInt _
      · exact ⟨by norm_num, by norm_num⟩

theorem lookup_append_of_some {k : String} {v : String}
    {acc : List (String × String)} (l : List (String × String))
    (h : List.lookup k acc = some v) : List.lookup k (acc ++ l) = some v := by
  induction acc with
  | nil => simp [List.lookup] at h
  | cons p rest ih =>
    rcases p with ⟨k', v'⟩
    by_cases hk : k = k'
    · subst hk
      simp [List.lookup] at h ⊢
      exact h
    · simp [List.lookup, beq_false_of_ne hk] at h ⊢
      exact ih h

theorem lookup_setdefault_of_some {k k' v v' : String}
    {acc : List (String × String)} (h : List.lookup k acc = some v) :
    List.lookup k (setdefault acc k' v') = some v := by
  unfold setdefault
  split
  · exact h
  · exact lookup_append_of_some _ h

theorem lookup_addCoin_of_some {k v : String} {acc acc' : List (String × String)}
    {c : J} (hc : addCoin acc c = some acc')
    (h : List.lookup k acc = some v) : List.lookup k acc' = some v := by
  cases c <;> simp only [addCoin] at hc <;> try exact Option.noConfusion hc
  case obj kvs =>
    cases h1 : lowerOrEmpty (objGet kvs "id") with
    | none => rw [h1] at hc; exact Option.noConfusion hc
    | some cid =>
      cases h2 : lowerOrEmpty (objGet kvs "symbol") with
      | none => rw [h1, h2] at hc; exact Option.noConfusion hc
      | some sym =>
        cases h3 : lowerOrEmpty (objGet kvs "name") with
        | none => rw [h1, h2, h3] at hc; exact Option.noConfusion hc
        | some nm =>
          rw [h1, h2, h3] at hc
          by_cases hcid0 : cid = ""
          · simp [hcid0] at hc
            first
              | exact hc ▸ h
              | exact hc.symm ▸ h
          · by_cases hsym0 : sym = "" <;> by_cases hnm0 : nm = "" <;>
              simp [hcid0, hsym0, hnm0] at hc <;>
              first
                | exact hc ▸ h
                | exact hc.symm ▸ h
                | exact hc ▸ lookup_setdefault_of_some h
                | exact hc.symm ▸ lookup_setdefault_of_some h
                | exact hc ▸ lookup_setdefault_of_some (lookup_setdefault_of_some h)
                | exact hc.symm ▸ lookup_setdefault_of_some (lookup_setdefault_of_some h)

theorem lookup_processItems_of_some {k v : String} :
    ∀ (l : List J) (acc : List (String × String)),
    List.lookup k acc = some v → List.lookup k (processItems acc l).1 = some v := by
  intro l
  induction l with
  | nil => intro acc h; simpa [processItems]
  | cons c rest ih =>
    intro acc h
    unfold processItems
    cases hc : addCoin acc c with
    | some acc' => exact ih acc' (lookup_addCoin_of_some hc h)
    | none => simpa

/-- C7: alias resolution is case- and punctuation-insensitive — for any
table mapping bitcoin's symbol and name to the same truthy canonical id,
"BTC", "btc" and "Bitcoin" all resolve to it; a token absent from the
table both directly and after stripping non-alphanumerics resolves to
`none` (and `resolve_coin_id` is a total function, so it never raises);
and the table build has first-writer-wins semantics: a binding present
in the accumulated table is never overwritten by later coins of either
listing. -/
theorem resolve_coin_id_ok :
    (∀ (aliases : List (String × String)) (cid : String), cid ≠ "" →
      List.lookup "btc" aliases = some cid →
      List.lookup "bitcoin" aliases = some cid →
      resolve_coin_id aliases (some "BTC") = some cid ∧
      resolve_coin_id aliases (some "btc") = some cid ∧
      resolve_coin_id aliases (some "Bitcoin") = some cid)
  ∧ (∀ (aliases : List (String × String)) (m : String),
      List.lookup (pyLower (pyStrip m)) aliases = none →
      List.lookup (String.mk ((pyLower (pyStrip m)).data.filter Char.isAlphanum)) aliases = none →
      resolve_coin_id aliases (some m) = none)
  ∧ (∀ (aliases : List (String × String)),
      resolve_coin_id aliases none = none ∧ resolve_coin_id aliases (some "") = none)
  ∧ (∀ (l1 l2 : List J) (k v : String),
      List.lookup k (processItems [] l1).1 = some v →
      List.lookup k (fetchAliases l1 l2) = some v) := by
  refine ⟨?_, ?_, ?_, ?_⟩
  · intro aliases cid hcid h1 h2
    have e1 : pyLower (pyStrip "BTC") = "btc" := by decide
    have e2 : pyLower (pyStrip "btc") = "btc" := by decide
    have e3 : pyLower (pyStrip "Bitcoin") = "bitcoin" := by decide
    refine ⟨?_, ?_, ?_⟩ <;>
      simp [resolve_coin_id, e1, e2, e3, h1, h2, hcid]
  · intro aliases m h1 h2
    by_cases hm : m = ""
    · simp [resolve_coin_id, hm]
    · simp only [resolve_coin_id, hm, if_false, h1]
      simp only [resolveStripped]
      split
      · exact h2
      · rfl
  · intro aliases
    exact ⟨rfl, by simp [resolve_coin_id]⟩
  · intro l1 l2 k v h
    simp only [fetchAliases]
    split
    · exact lookup_processItems_of_some l2 _ h
    · exact h

/-- Witness for `resolve_coin_id_ok`: a two-entry table on which the
"BTC"/"btc"/"Bitcoin" conjunct evaluates concretely, plus a miss. -/
theorem resolve_coin_id_ok_witness :
    resolve_coin_id [("btc", "bitcoin"), ("bitcoin", "bitcoin")] (some "BTC") = some "bitcoin" ∧
    resolve_coin_id [("btc", "bitcoin"), ("bitcoin", "bitcoin")] (some "btc") = some "bitcoin" ∧
    resolve_coin_id [("btc", "bitcoin"), ("bitcoin", "bitcoin")] (some "Bitcoin") = some "bitcoin" ∧
    resolve_coin_id [("btc", "bitcoin"), ("bitcoin", "bitcoin")] (some "dogelonmars!") = none := by
  have h := (resolve_coin_id_ok.1 [("btc", "bitcoin"), ("bitcoin", "bitcoin")] "bitcoin"
    (by decide) (by decide) (by decide))
  refine ⟨h.1, h.2.1, h.2.2, ?_⟩
  exact resolve_coin_id_ok.2.1 [("btc", "bitcoin"), ("bitcoin", "bitcoin")] "dogelonmars!"
    (by decide) (by decide)

/-- C8: with the backing store unavailable, `set_json` then `get_json`
of the same key within the TTL returns the original value from the
in-process fallback map (leaving the map unchanged); after the TTL has
elapsed, `get_json` reports a miss and lazily evicts the entry. -/
theorem cache_fallback_roundtrip {α : Type} (ser : PySerializer α) (m : Mem)
    (key : String) (v : α) (ttl : ℤ) (t t' : ℚ)
    (h0 : 0 ≤ t) (httl : 0 < ttl) :
    (t' ≤ t + (ttl : ℚ) →
      get_json ser (set_json ser m key v (some ttl) t) key t' =
        (some v, set_json ser m key v (some ttl) t))
  ∧ (t + (ttl : ℚ) < t' →
      (get_json ser (set_json ser m key v (some ttl) t) key t').1 = none ∧
      (get_json ser (set_json ser m key v (some ttl) t) key t').2 key = none) := by
  have hexp : t + (ttl : ℚ) ≠ 0 := by
    have hq : (0 : ℚ) < (ttl : ℚ) := by exact_mod_cast httl
    nlinarith
  have httl' : ttl ≠ 0 := by omega
  constructor
  · intro hwithin
    have hnotlt : ¬ (t + (ttl : ℚ) < t') := not_lt.mpr hwithin
    unfold get_json memGet set_json memSet
    simp [httl', hexp, hnotlt, ser.dumps_nonempty v, ser.loads_dumps v]
  · intro hafter
    unfold get_json memGet set_json memSet
    simp [httl', hexp, hafter]

/-- Witness for `cache_fallback_roundtrip` at a concrete serializer,
empty map, ttl 300, set at time 0, reads at times 100 and 400. -/
theorem cache_fallback_roundtrip_witness :
    (get_json boolSer (set_json boolSer (fun _ => none) "news:coindesk:5" true (some 300) 0)
        "news:coindesk:5" 100 =
      (some true, set_json boolSer (fun _ => none) "news:coindesk:5" true (some 300) 0))
  ∧ ((get_json boolSer (set_json boolSer (fun _ => none) "news:coindesk:5" true (some 300) 0)
        "news:coindesk:5" 400).1 = none ∧
      (get_json boolSer (set_json boolSer (fun _ => none) "news:coindesk:5" true (some 300) 0)
        "news:coindesk:5" 400).2 "news:coindesk:5" = none) := by
  have h := cache_fallback_roundtrip boolSer (fun _ => none) "news:coindesk:5" true 300 0 100
    (by norm_num) (by norm_num)
  have h' := cache_fallback_roundtrip boolSer (fun _ => none) "news:coindesk:5" true 300 0 400
    (by norm_num) (by norm_num)
  exact ⟨h.1 (by norm_num), h'.2 (by norm_num)⟩

theorem takeLast_ne_nil {α : Type} {l : List α} (n : ℕ) (hn : 0 < n) (hl : l ≠ []) :
    takeLast n l ≠ [] := by
  intro h
  have hlen := congrArg List.length h
  simp only [takeLast, List.length_drop, List.length_nil] at hlen
  have hpos : 0 < l.length := List.length_pos.mpr hl
  omega

theorem takeLast_getLast? {α : Type} {l : List α} (n : ℕ) (hn : 0 < n) (hl : l ≠ []) :
    (takeLast n l).getLast? = l.getLast? := by
  have hd : takeLast n l ≠ [] := takeLast_ne_nil n hn hl
  calc (takeLast n l).getLast?
      = (l.take (l.length - n) ++ l.drop (l.length - n)).getLast? :=
        (List.getLast?_append_of_ne_nil _ hd).symm
    _ = l.getLast? := by rw [List.take_append_drop]

theorem intercalate_go_nil (a s : String) : String.intercalate.go a s [] = a := by
  simp [String.intercalate.go]

theorem intercalate_go_cons (a s b : String) (l : List String) :
    String.intercalate.go a s (b :: l) = String.intercalate.go (a ++ s ++ b) s l := by
  simp [String.intercalate.go]

theorem intercalate_one (s a : String) : String.intercalate s [a] = a := by
  simp [String.intercalate, intercalate_go_nil]

theorem intercalate_two (s a b : String) : String.intercalate s [a, b] = a ++ s ++ b := by
  simp [String.intercalate, intercalate_go_cons, intercalate_go_nil]

theorem objGet_single (k : String) (v : J) : objGet [(k, v)] k = v := by
  simp [objGet, objGetD, lookupLast]

theorem truthy_obj_of_ne_nil {kvs : List (String × J)} (h : kvs ≠ []) :
    truthy (J.obj kvs) = true := by
  simp [truthy, h]

theorem truthy_arr_of_ne_nil {xs : List J} (h : xs ≠ []) :
    truthy (J.arr xs) = true := by
  simp [truthy, h]

/-- C6: the master extractor prefers the last cleaned data-part text
(with inline history the cleaned data-part texts capped to the last 20,
most-recent-last), then the cleaned text-part at index 0, then the
cleaned top-level `message.text`. -/
theorem extract_master_preference :
    (∀ (msgKvs : List (String × J)) (xs : List J) (kvs1 : List (String × J))
       (items : List J) (cleaned : List String),
      objGet msgKvs "parts" = J.arr xs →
      xs[1]? = some (J.obj kvs1) →
      jEqStr (objGet kvs1 "kind") "data" = true →
      objGet kvs1 "data" = J.arr items →
      collectCleaned items = .ok cleaned →
      cleaned ≠ [] →
      extract_text_and_data_master (J.obj [("message", J.obj msgKvs)]) =
        .ok (some (cleaned.getLast?.getD ""), takeLast 20 cleaned,
          "data_text_count=" ++ toString cleaned.length ++ ";source=data:last"))
  ∧ (∀ (msgKvs : List (String × J)) (xs : List J) (kvs0 : List (String × J)) (t0 : String),
      objGet msgKvs "parts" = J.arr xs →
      masterDataTexts (J.arr xs) xs.length = .ok none →
      xs[0]? = some (J.obj kvs0) →
      jEqStr (objGet kvs0 "kind") "text" = true →
      cleanArg (objGet kvs0 "text") = .ok t0 →
      t0 ≠ "" →
      extract_text_and_data_master (J.obj [("message", J.obj msgKvs)]) =
        .ok (some t0, [], "source=parts0"))
  ∧ (∀ (msgKvs : List (String × J)) (mt : String),
      objGet msgKvs "parts" = J.null →
      cleanArg (objGet msgKvs "text") = .ok mt →
      mt ≠ "" →
      msgKvs ≠ [] →
      extract_text_and_data_master (J.obj [("message", J.obj msgKvs)]) =
        .ok (some mt, [], "source=message.text")) := by
  refine ⟨?_, ?_, ?_⟩
  · intro msgKvs xs kvs1 items cleaned hparts h1 hkind hdata hclean hne
    have hmsgKvs : msgKvs ≠ [] := by
      intro h
      rw [h] at hparts
      simp [objGet, objGetD, lookupLast] at hparts
    have hlen1 : 1 < xs.length := (List.getElem?_eq_some.mp h1).1
    have hxs : xs ≠ [] := by intro h; subst h; simp at hlen1
    have hitems : items ≠ [] := by
      intro h
      subst h
      simp only [collectCleaned] at hclean
      cases hclean
      exact hne rfl
    have hih : takeLast 20 cleaned ≠ [] := takeLast_ne_nil 20 (by norm_num) hne
    have hihF : (takeLast 20 cleaned).isEmpty = false := by
      simp [List.isEmpty_iff, hih]
    have hdataRes : masterDataTexts (J.arr xs) xs.length = .ok (some cleaned) := by
      simp only [masterDataTexts, hlen1, if_true, gt_iff_lt, pyIndex, h1, bind, Except.bind,
        hkind, hdata, truthy_arr_of_ne_nil hitems, if_true, pyIterList, hclean]
      rfl
    have htrP : truthy (J.obj [("message", J.obj msgKvs)]) = true :=
      truthy_obj_of_ne_nil (by simp)
    have hs : (";" ++ "source=data:last" : String) = ";source=data:last" := by decide
    simp only [extract_text_and_data_master, bind, Except.bind, pure, Except.pure, htrP,
      if_true, objGet_single, truthy_obj_of_ne_nil hmsgKvs, pyGet, hparts,
      truthy_arr_of_ne_nil hxs, pyLen, hdataRes, hihF, Bool.false_eq_true, if_false]
    rw [takeLast_getLast? 20 (by norm_num) hne]
    simp [intercalate_two, String.append_assoc, hs]
  · intro msgKvs xs kvs0 t0 hparts hdataRes h0 hkind hcln ht0
    have hmsgKvs : msgKvs ≠ [] := by
      intro h
      rw [h] at hparts
      simp [objGet, objGetD, lookupLast] at hparts
    have hlen0 : 0 < xs.length := (List.getElem?_eq_some.mp h0).1
    have hxs : xs ≠ [] := by intro h; subst h; simp at hlen0
    have htrP : truthy (J.obj [("message", J.obj msgKvs)]) = true :=
      truthy_obj_of_ne_nil (by simp)
    simp only [extract_text_and_data_master, bind, Except.bind, pure, Except.pure, htrP,
      if_true, objGet_single, truthy_obj_of_ne_nil hmsgKvs, pyGet, hparts,
      truthy_arr_of_ne_nil hxs, pyLen, hdataRes, hlen0, gt_iff_lt, pyIndex, h0, hkind, hcln]
    simp [intercalate_one, ht0]
  · intro msgKvs mt hparts hcln hmt hmsgKvs
    have hdataRes : masterDataTexts (J.arr []) 0 = .ok none := rfl
    have htrP : truthy (J.obj [("message", J.obj msgKvs)]) = true :=
      truthy_obj_of_ne_nil (by simp)
    simp only [extract_text_and_data_master, bind, Except.bind, pure, Except.pure, htrP,
      if_true, objGet_single, truthy_obj_of_ne_nil hmsgKvs, pyGet, hparts,
      pyLen, if_false, List.length_nil, hdataRes, gt_iff_lt, lt_self_iff_false, hcln]
    simp only [truthy, Bool.false_eq_true, if_false, pyLen, List.length_nil, hdataRes]
    simp [intercalate_one, hmt, hcln]

/-- Witness for `extract_master_preference`: the data-part with texts
["a","b","c"] and a non-text part at index 0 — the effective text is
"c" and the inline history is ["a","b","c"]. -/
theorem extract_master_preference_witness :
    extract_text_and_data_master
      (J.obj [("message", J.obj [("parts", J.arr
        [J.obj [("kind", J.str "other")],
         J.obj [("kind", J.str "data"), ("data", J.arr
           [J.obj [("kind", J.str "text"), ("text", J.str "a")],
            J.obj [("kind", J.str "text"), ("text", J.str "b")],
            J.obj [("kind", J.str "text"), ("text", J.str "c")]])]])])]) =
      .ok (some "c", ["a", "b", "c"], "data_text_count=3;source=data:last") := by
  have h := extract_master_preference.1
    [("parts", J.arr
      [J.obj [("kind", J.str "other")],
       J.obj [("kind", J.str "data"), ("data", J.arr
         [J.obj [("kind", J.str "text"), ("text", J.str "a")],
          J.obj [("kind", J.str "text"), ("text", J.str "b")],
          J.obj [("kind", J.str "text"), ("text", J.str "c")]])]])]
    [J.obj [("kind", J.str "other")],
     J.obj [("kind", J.str "data"), ("data", J.arr
       [J.obj [("kind", J.str "text"), ("text", J.str "a")],
        J.obj [("kind", J.str "text"), ("text", J.str "b")],
        J.obj [("kind", J.str "text"), ("text", J.str "c")]])]]
    [("kind", J.str "data"), ("data", J.arr
       [J.obj [("kind", J.str "text"), ("text", J.str "a")],
        J.obj [("kind", J.str "text"), ("text", J.str "b")],
        J.obj [("kind", J.str "text"), ("text", J.str "c")]])]
    [J.obj [("kind", J.str "text"), ("text", J.str "a")],
     J.obj [("kind", J.str "text"), ("text", J.str "b")],
     J.obj [("kind", J.str "text"), ("text", J.str "c")]]
    ["a", "b", "c"]
    rfl rfl rfl rfl rfl (by simp)
  exact h

/-- C1: session identity derivation is a pure function of the explicit
params, metadata and headers (it is a Lean function of exactly those
inputs, so identical inputs give identical keys); when both an org and a
user identity resolve the key is `"{org}:{user}"`; when nothing resolves
the key is `"anonymous"`; otherwise the fixed priority user id, org id,
generic session header, channel id applies; each value is normalized by
trim, lowercase, space-to-underscore and truncation to 128 characters
(`pyNorm`), so every component, and in particular an explicit user id,
enters the key in normalized form. -/
theorem session_id_resolution :
    (∀ (h : List (String × String)) (p : InvokeParams),
      resolvedOrg h p ≠ "" → resolvedUser h p ≠ "" →
      get_session_id h p = resolvedOrg h p ++ ":" ++ resolvedUser h p)
  ∧ (∀ (h : List (String × String)) (p : InvokeParams),
      resolvedUser h p = "" → resolvedOrg h p = "" →
      normO (hdrGet h "x-session-id") = "" → normO p.channel_id = "" →
      get_session_id h p = "anonymous")
  ∧ (∀ (h : List (String × String)) (p : InvokeParams),
      resolvedUser h p ≠ "" → resolvedOrg h p = "" →
      get_session_id h p = resolvedUser h p)
  ∧ (∀ (h : List (String × String)) (p : InvokeParams),
      resolvedUser h p = "" → resolvedOrg h p ≠ "" →
      get_session_id h p = resolvedOrg h p)
  ∧ (∀ (h : List (String × String)) (p : InvokeParams),
      resolvedUser h p = "" → resolvedOrg h p = "" →
      normO (hdrGet h "x-session-id") ≠ "" →
      get_session_id h p = normO (hdrGet h "x-session-id"))
  ∧ (∀ (h : List (String × String)) (p : InvokeParams),
      resolvedUser h p = "" → resolvedOrg h p = "" →
      normO (hdrGet h "x-session-id") = "" → normO p.channel_id ≠ "" →
      get_session_id h p = normO p.channel_id)
  ∧ (∀ (h : List (String × String)) (p : InvokeParams) (s : String),
      p.user_id = some s → pyNorm s ≠ "" →
      resolvedUser h p = pyNorm s)
  ∧ (∀ s : String, (pyNorm s).length ≤ 128) := by
  refine ⟨?_, ?_, ?_, ?_, ?_, ?_, ?_, ?_⟩
  · intro h p h1 h2
    simp [get_session_id, h1, h2]
  · intro h p h1 h2 h3 h4
    simp [get_session_id, h1, h2, h3, h4]
  · intro h p h1 h2
    simp [get_session_id, h1, h2]
  · intro h p h1 h2
    simp [get_session_id, h1, h2]
  · intro h p h1 h2 h3
    simp [get_session_id, h1, h2, h3]
  · intro h p h1 h2 h3 h4
    simp [get_session_id, h1, h2, h3, h4]
  · intro h p s hs hn
    simp [resolvedUser, normO, hs, hn]
  · intro s
    have h1 : (pyNorm s).length = (((pyLower (pyStrip s)).data.map
        (fun c => if c = ' ' then '_' else c)).take 128).length := rfl
    rw [h1, List.length_take]
    omega

/-- Witness for `session_id_resolution`: an org header and an explicit
user id resolve to `"acme_corp:alice"`. -/
theorem session_id_resolution_witness :
    get_session_id [("X-Org-Id", " ACME Corp ")]
      { text := "hi", user_id := some "Alice" } = "acme_corp:alice" := by
  have h := session_id_resolution.1 [("X-Org-Id", " ACME Corp ")]
    { text := "hi", user_id := some "Alice" } (by decide) (by decide)
  rw [h]
  rfl

theorem getLast?_concat_ev (evs : List Ev) (e : Ev) :
    (evs ++ [e]).getLast? = some e := by
  simp

theorem priceCompose_persists {env : Env} {rid : J} {sid text : String}
    {merged : List J} {label : J} {temp : ℚ} {coin : String} {price : J}
    {evs : List Ev} {r : RpcResp} {t : List Ev}
    (h : priceCompose env rid sid text merged label temp coin price evs = .ok (r, t)) :
    t.getLast? = some (.append sid text r.content) := by
  unfold priceCompose at h
  split at h
  · cases h
  · cases h
    simp [as_result]

theorem handlePrice_persists {env : Env} {rid : J} {sid text : String}
    {merged : List J} {label : J} {temp : ℚ} {r : RpcResp} {t : List Ev}
    (h : handlePrice env rid sid text merged label temp = .ok (r, t)) :
    t.getLast? = some (.append sid text r.content) := by
  unfold handlePrice at h
  cases hr : resolve_coin_id env.aliases (extract_coin_from_price text) with
  | none =>
    simp only [hr] at h
    cases h
    simp [priceClarify, as_result]
  | some coin =>
    simp only [hr] at h
    by_cases hc : coin = ""
    · simp only [hc, if_true] at h
      cases h
      simp [priceClarify, as_result]
    · simp only [hc, if_false] at h
      cases hg : env.cacheGet ("price:" ++ coin ++ ":usd") with
      | error e =>
        simp only [hg] at h
        cases h
        simp [priceFetchFail, as_result]
      | ok cached =>
        simp only [hg] at h
        by_cases hn : isNull cached = true
        · simp only [hn, if_true] at h
          cases hf : env.fetchPrice coin with
          | error e =>
            simp only [hf] at h
            cases h
            simp [priceFetchFail, as_result]
          | ok price =>
            simp only [hf] at h
            by_cases hp : isNull price = true
            · simp only [hp, if_true] at h
              cases h
              simp [aiErrorResult, as_result]
            · simp only [hp, Bool.false_eq_true, if_false] at h
              exact priceCompose_persists h
        · simp only [hn, Bool.false_eq_true, if_false] at h
          exact priceCompose_persists h

theorem handleNews_persists {env : Env} {rid : J} {sid text : String}
    {merged : List J} {label : J} {temp : ℚ} {r : RpcResp} {t : List Ev}
    (h : handleNews env rid sid text merged label temp = .ok (r, t)) :
    t.getLast? = some (.append sid text r.content) := by
  unfold handleNews at h
  cases h
  simp [as_result]

theorem topExceptPath_persists {env : Env} {rid : J} {sid text : String}
    {markets : J} {title : String} {evs : List Ev} {r : RpcResp} {t : List Ev}
    (h : topExceptPath env rid sid text markets title evs = .ok (r, t)) :
    t.getLast? = some (.append sid text r.content) := by
  unfold topExceptPath at h
  split at h
  · cases h
  · cases h
    simp [as_result]

theorem handleTop_persists {env : Env} {rid : J} {sid text : String}
    {merged : List J} {label : J} {temp : ℚ} {intent : String} {r : RpcResp} {t : List Ev}
    (h : handleTop env rid sid text merged label temp intent = .ok (r, t)) :
    t.getLast? = some (.append sid text r.content) := by
  simp only [handleTop] at h
  cases hg : env.cacheGet ("markets:top:" ++ toString (extract_count text 10)) with
  | error e => simp only [hg] at h; cases h
  | ok cached =>
    simp only [hg] at h
    cases hm0 : (if truthy cached = true then Except.ok cached
        else env.fetchMarkets (extract_count text 10)) with
    | error e => simp only [hm0] at h; cases h
    | ok markets0 =>
      simp only [hm0] at h
      cases hs : (if intent = "worst" then sortWorst markets0 (extract_count text 10)
          else Except.ok markets0) with
      | error e =>
        simp only [hs] at h
        exact topExceptPath_persists h
      | ok markets =>
        simp only [hs] at h
        cases hb : buildItems markets with
        | error e =>
          simp only [hb] at h
          exact topExceptPath_persists h
        | ok items =>
          simp only [hb] at h
          by_cases hz : env.compose text merged (J.obj [("deployment_label", label),
            ("intent", J.str (if intent = "worst" then "worst" else "top")),
            ("count", J.int (extract_count text 10)), ("list", items),
            ("data_source", J.str "CoinGecko")]) temp = ""
          · simp only [hz, if_true] at h
            cases hmd : mdTopList (if intent = "worst"
                then "Worst " ++ toString (extract_count text 10) ++ " coins (24h)"
                else "Top " ++ toString (extract_count text 10) ++ " coins by market cap")
                (if truthy markets = true then markets else J.arr []) with
            | error e =>
              simp only [hmd] at h
              exact topExceptPath_persists h
            | ok content =>
              simp only [hmd] at h
              cases h
              simp [as_result]
          · simp only [hz, if_false] at h
            cases h
            simp [as_result]

theorem handleTrending_persists {env : Env} {rid : J} {sid text : String}
    {merged : List J} {label : J} {temp : ℚ} {r : RpcResp} {t : List Ev}
    (h : handleTrending env rid sid text merged label temp = .ok (r, t)) :
    t.getLast? = some (.append sid text r.content) := by
  simp only [handleTrending] at h
  cases hg : env.cacheGet "trending" with
  | error e => simp only [hg] at h; cases h
  | ok cached =>
    simp only [hg] at h
    cases ht : (if truthy cached = true then Except.ok cached else env.fetchTrending) with
    | error e => simp only [ht] at h; cases h
    | ok trending =>
      simp only [ht] at h
      cases hti : trendItems trending with
      | error e =>
        simp only [hti] at h
        cases htf : trendFallback trending with
        | error e2 => simp only [htf] at h; cases h
        | ok content =>
          simp only [htf] at h
          cases h
          simp [as_result]
      | ok items =>
        simp only [hti] at h
        cases h
        simp [as_result]

theorem handleDetail_persists {env : Env} {rid : J} {sid text : String}
    {merged : List J} {label : J} {temp : ℚ} {r : RpcResp} {t : List Ev}
    (h : handleDetail env rid sid text merged label temp = .ok (r, t)) :
    t.getLast? = some (.append sid text r.content) := by
  simp only [handleDetail] at h
  cases hw : (pySplitWs text).getLast? with
  | none => simp only [hw] at h; cases h
  | some w =>
    simp only [hw] at h
    cases hf : env.fetchDetail (match resolve_coin_id env.aliases (some (pyLower w)) with
        | some c => if c = "" then pyLower w else c
        | none => pyLower w) with
    | error e =>
      simp only [hf] at h
      cases h
      simp [aiErrorResult, as_result]
    | ok d =>
      simp only [hf] at h
      by_cases htd : truthy d = true
      · simp only [htd, if_true] at h
        cases hdf : detailFacts d label with
        | error e => simp only [hdf] at h; cases h
        | ok facts =>
          simp only [hdf] at h
          cases h
          simp [as_result]
      · simp only [htd, Bool.false_eq_true, if_false] at h
        cases h
        simp [aiErrorResult, as_result]

/-- C9: on every branch of the intent dispatcher that returns a response
— price (clarification, not-found, fetch-failure and success paths),
news (including the fixed apology), top/worst (including the Markdown
fallback), trending (including its fallback), detail (not-found and
success) and unknown — the last trace event before the response is the
session-store append of the turn (user text, composed content), where
the composed content is exactly the returned response content. -/
theorem handle_invoke_persists (env : Env) (rid : J) (text : String)
    (p : InvokeParams) (label : J) (temp : ℚ) (ih : Option (List String))
    (r : RpcResp) (t : List Ev)
    (h : handle_invoke env rid text p label temp ih = .ok (r, t)) :
    t.getLast? = some (.append (get_session_id env.headers p) text r.content) := by
  simp only [handle_invoke] at h
  repeat' split at h
  · exact handlePrice_persists h
  · exact handleNews_persists h
  · exact handleTop_persists h
  · exact handleTrending_persists h
  · exact handleDetail_persists h
  · cases h
    simp [handleUnknown, as_result]

/-- Witness for `handle_invoke_persists`: an unknown-intent turn in the
concrete environment is appended before the response is returned. -/
theorem handle_invoke_persists_witness :
    handle_invoke envTest (J.str "1") "hello" { text := "hello" } (J.str "L")
        (7/10) none =
      .ok ({ id := J.str "1", content := "FB" }, [.append "anonymous" "hello" "FB"]) ∧
    [Ev.append "anonymous" "hello" "FB"].getLast? =
      some (.append (get_session_id envTest.headers { text := "hello" }) "hello"
        ({ id := J.str "1", content := "FB" } : RpcResp).content) := by
  constructor
  · rfl
  · exact handle_invoke_persists envTest (J.str "1") "hello" { text := "hello" }
      (J.str "L") (7/10) none _ _ rfl

/-- C10: in the detail branch, when the trailing word of the user text
cannot be resolved by the alias table, the dispatcher uses the raw
lowercased trailing word itself as the coin id for the provider detail
fetch (`resolve_coin_id(maybe) or maybe`), so an unrecognized token
still triggers a detail lookup; the structured not-found response is
produced only when that fetch raises or returns a falsy value, while a
truthy result composes the full fact sheet. -/
theorem detail_uses_raw_word (env : Env) (rid : J) (text : String)
    (p : InvokeParams) (label : J) (temp : ℚ) (ih : Option (List String)) (w : String)
    (hcls : classify text = "detail")
    (hw : (pySplitWs text).getLast? = some w)
    (hres : resolve_coin_id env.aliases (some (pyLower w)) = none) :
    (env.fetchDetail (pyLower w) = .error () →
      handle_invoke env rid text p label temp ih =
        .ok (let sid := get_session_id env.headers p
             let merged := mergedHistory env sid ih
             let re := aiErrorResult env rid sid text merged label temp "coin_not_found"
               "detail" (J.str (pyLower w)) (J.str "CoinGecko") detailExtraMsg
             (re.1, Ev.fetchDetail (pyLower w) :: re.2)))
  ∧ (∀ d : J, env.fetchDetail (pyLower w) = .ok d → truthy d = false →
      handle_invoke env rid text p label temp ih =
        .ok (let sid := get_session_id env.headers p
             let merged := mergedHistory env sid ih
             let re := aiErrorResult env rid sid text merged label temp "coin_not_found"
               "detail" (J.str (pyLower w)) (J.str "CoinGecko") detailExtraMsg
             (re.1, Ev.fetchDetail (pyLower w) :: re.2)))
  ∧ (∀ (d facts : J), env.fetchDetail (pyLower w) = .ok d → truthy d = true →
      detailFacts d label = .ok facts →
      handle_invoke env rid text p label temp ih =
        .ok (let sid := get_session_id env.headers p
             let merged := mergedHistory env sid ih
             let content := env.compose text merged facts temp
             (as_result rid content,
               [Ev.fetchDetail (pyLower w), Ev.append sid text content]))) := by
  have hdisp : handle_invoke env rid text p label temp ih =
      handleDetail env rid (get_session_id env.headers p) text
        (mergedHistory env (get_session_id env.headers p) ih) label temp := by
    simp only [handle_invoke, hcls]
    rw [if_neg (by decide), if_neg (by decide), if_neg (by decide), if_neg (by decide),
      if_pos (by decide)]
  refine ⟨?_, ?_, ?_⟩
  · intro hf
    rw [hdisp]
    simp [handleDetail, hw, hres, hf, truthy, aiErrorResult, as_result]
  · intro d hf htd
    rw [hdisp]
    simp [handleDetail, hw, hres, hf, htd, aiErrorResult, as_result]
  · intro d facts hf htd hdf
    rw [hdisp]
    simp [handleDetail, hw, hres, hf, htd, hdf, as_result]

/-- Witness for `detail_uses_raw_word`: "info btc" with an empty alias
table fetches detail for the raw word "btc" and composes the fact
sheet. -/
theorem detail_uses_raw_word_witness :
    classify "info btc" = "detail" ∧
    resolve_coin_id envTest.aliases (some (pyLower "btc")) = none ∧
    handle_invoke envTest (J.str "1") "info btc" { text := "info btc" } (J.str "L")
        (7/10) none =
      .ok (as_result (J.str "1") "C",
        [Ev.fetchDetail "btc", Ev.append "anonymous" "info btc" "C"]) := by
  refine ⟨by decide, rfl, ?_⟩
  have h := (detail_uses_raw_word envTest (J.str "1") "info btc" { text := "info btc" }
    (J.str "L") (7/10) none "btc" (by decide) rfl rfl).2.2
    (J.obj [("name", J.str "btc")])
    (J.obj [("deployment_label", J.str "L"), ("intent", J.str "detail"),
      ("name", J.str "btc"), ("symbol", J.null), ("price", J.null),
      ("market_cap", J.null), ("volume_24h", J.null), ("change_24h", J.null),
      ("data_source", J.str "CoinGecko")])
    rfl rfl rfl
  exact h

theorem jIdOf_mtr (env : Env) (rid : J) (content : String) (ctx task : J)
    (st : String) (e : Option String) :
    jIdOf (make_task_result env rid content ctx task st e) = some rid := rfl

theorem msgSendCore_id {env : Env} {rid : J} {pkvs : List (String × J)}
    {r : J × List Ev} (h : msgSendCore env rid pkvs = .ok r) :
    jIdOf r.1 = some rid := by
  simp only [msgSendCore, bind, Except.bind, pure, Except.pure] at h
  repeat' split at h
  all_goals cases h <;> simp [jIdOf_mtr]

/-- C3: for every request on which the `/invoke` endpoint produces a
response envelope, the envelope's `id` equals the request envelope's
`id`; the leniently parsed request id is `body.get("id", "")`, so an
absent id is echoed as the empty string. -/
theorem invoke_echoes_request_id :
    (∀ (env : Env) (body rid method params resp : J) (trace : List Ev),
      parse_jsonrpc body = .ok (rid, method, params) →
      invoke env body = .ok (resp, trace) →
      jIdOf resp = some rid)
  ∧ (∀ (kvs : List (String × J)) (rid method params : J),
      parse_jsonrpc (J.obj kvs) = .ok (rid, method, params) →
      rid = objGetD kvs "id" (.str ""))
  ∧ (∀ (kvs : List (String × J)) (rid method params : J),
      lookupLast kvs "id" = none →
      parse_jsonrpc (J.obj kvs) = .ok (rid, method, params) →
      rid = .str "") := by
  have parse_rid : ∀ (kvs : List (String × J)) (rid method params : J),
      parse_jsonrpc (J.obj kvs) = .ok (rid, method, params) →
      rid = objGetD kvs "id" (.str "") := by
    intro kvs rid method params h
    by_cases ht : truthy (J.obj kvs) = true
    · simp only [parse_jsonrpc, ht, if_true] at h
      cases h
      rfl
    · have hk : kvs = [] := by
        simp [truthy, List.isEmpty_iff] at ht
        exact ht
      subst hk
      simp only [parse_jsonrpc] at h
      cases h
      rfl
  refine ⟨?_, parse_rid, ?_⟩
  · intro env body rid method params resp trace h1 h2
    simp only [invoke, h1] at h2
    by_cases hh : jEqStr method "help" = true
    · simp only [hh, if_true] at h2
      cases h2
      exact jIdOf_mtr env rid HELP_TEXT _ _ _ _
    · simp only [hh, Bool.false_eq_true, if_false] at h2
      by_cases hm : jEqStr method "message/send" = true
      · simp only [hm, if_true] at h2
        cases params <;>
          first
            | (dsimp only at h2
               cases h2
               exact jIdOf_mtr env rid _ _ _ _ _)
            | skip
        next pkvs =>
          cases hcore : msgSendCore env rid pkvs with
          | error e =>
            simp only [hcore] at h2
            cases h2
            exact jIdOf_mtr env rid _ _ _ _ _
          | ok r =>
            simp only [hcore] at h2
            injection h2 with hr
            have hid := msgSendCore_id hcore
            rw [hr] at hid
            simpa using hid
      · simp only [hm, Bool.false_eq_true, if_false] at h2
        cases h2
        exact jIdOf_mtr env rid _ _ _ _ _
  · intro kvs rid method params habs h
    have := parse_rid kvs rid method params h
    simp [objGetD, habs] at this
    exact this

/-- Witness for `invoke_echoes_request_id`: a help request with id 42 is
answered with id 42. -/
theorem invoke_echoes_request_id_witness :
    parse_jsonrpc (J.obj [("id", J.int 42), ("method", J.str "help")]) =
      .ok (J.int 42, J.str "help", J.obj []) ∧
    jIdOf (make_task_result envTest (J.int 42) HELP_TEXT (J.str "u") (J.str "u")
      "completed" none) = some (J.int 42) := by
  refine ⟨rfl, ?_⟩
  exact invoke_echoes_request_id.1 envTest
    (J.obj [("id", J.int 42), ("method", J.str "help")]) (J.int 42) (J.str "help")
    (J.obj []) _ [] rfl rfl

/-- C2 counterexample: the claim says a `method="invoke"` request with
missing/invalid text yields a JSON-RPC error with code -32602 (and an
unknown method -32601), but the endpoint has no `invoke` method at all:
the request falls through to the unknown-method branch and the response
is a task envelope with state "failed", the unknown-method message, and
no `error` member of any code. -/
theorem invoke_method_counterexample :
    invoke envTest bodyInvoke =
      .ok (make_task_result envTest (J.str "1")
        "Unknown method. Use 'message/send' or 'help'." (J.str "u") (J.str "u")
        "failed" none, []) ∧
    jErrorOf (make_task_result envTest (J.str "1")
      "Unknown method. Use 'message/send' or 'help'." (J.str "u") (J.str "u")
      "failed" none) = none ∧
    jStateOf (make_task_result envTest (J.str "1")
      "Unknown method. Use 'message/send' or 'help'." (J.str "u") (J.str "u")
      "failed" none) = some (J.str "failed") :=
  ⟨rfl, rfl, rfl⟩

/-- C2 (amended): a request whose method is "invoke" — like every method
other than "help" and "message/send" — yields a task envelope with state
"failed" and the unknown-method message, not a JSON-RPC error object
with code -32602 or -32601; an internal fault after envelope parsing in
the message/send branch yields a failed task envelope; and no envelope
ever carries an `error` member — every produced response (`.ok`) is
returned at HTTP 200 with the error communicated only in the body. -/
theorem invoke_unknown_method_behavior :
    (∀ (env : Env) (body rid method params : J),
      parse_jsonrpc body = .ok (rid, method, params) →
      jEqStr method "help" = false → jEqStr method "message/send" = false →
      invoke env body = .ok (make_task_result env rid
        "Unknown method. Use 'message/send' or 'help'." (J.str env.uuid)
        (J.str env.uuid) "failed" none, []))
  ∧ (∀ (env : Env) (body rid method : J) (pkvs : List (String × J)),
      parse_jsonrpc body = .ok (rid, method, .obj pkvs) →
      jEqStr method "message/send" = true →
      msgSendCore env rid pkvs = .error () →
      invoke env body = .ok (make_task_result env rid
        "Internal error while handling the request." (J.str env.uuid)
        (J.str env.uuid) "failed" none, []))
  ∧ (∀ (env : Env) (rid : J) (content : String) (ctx task : J) (st : String)
      (e : Option String),
      jErrorOf (make_task_result env rid content ctx task st e) = none) := by
  refine ⟨?_, ?_, ?_⟩
  · intro env body rid method params h1 h2 h3
    simp [invoke, h1, h2, h3]
  · intro env body rid method pkvs h1 hm hcore
    have hmethod : method = J.str "message/send" := by
      cases method <;> simp [jEqStr] at hm
      case str t => rw [hm]
    subst hmethod
    simp [invoke, h1, hcore, jEqStr]
  · intro env rid content ctx task st e
    rfl

/-- Witness for `invoke_unknown_method_behavior` at the concrete
`method="invoke"` request. -/
theorem invoke_unknown_method_behavior_witness :
    invoke envTest bodyInvoke = .ok (make_task_result envTest (J.str "1")
      "Unknown method. Use 'message/send' or 'help'." (J.str "u") (J.str "u")
      "failed" none, []) :=
  invoke_unknown_method_behavior.1 envTest bodyInvoke (J.str "1") (J.str "invoke")
    (J.obj []) rfl rfl rfl

end CryptoSage
